import Mathlib

/-!
# Screen recorder: capture session (frontend) and range streaming (backend)

A shallow embedding of `src/frontend/src/App.js` and `src/backend/server.js`.

* JavaScript strings are `String`; character-level work is done on `String.data`.
* A JavaScript number that the code computes with is a `JSNum`: `none` is `NaN`,
  `some i` is the integer `i`.  The embedding is exact on the safe-integer range
  (magnitude at most `2 ^ 53`), which is where file sizes and offsets live.
* React state, refs and the browser objects reachable from the component are the
  fields of one record, `App`; every handler is a function `App → App`.  A closure
  that captures a state variable of the render it was created in takes the captured
  value as an explicit argument.
-/

namespace ScreenRecorder

/-! ## Strings and numbers -/

/-- One byte of a file or of a media chunk. -/
abbrev Byte := Fin 256

/-- A number as the handlers compute with it: `none` is `NaN`, `some i` the integer
`i`.  JavaScript numbers are doubles, so this reading is exact only while every
operand and result has magnitude at most `2 ^ 53`; the statements below stay inside
that range. -/
abbrev JSNum := Option Int

/-- JavaScript `a - b` on numbers (`NaN` is absorbing), for operands and a result of
magnitude at most `2 ^ 53`, where the subtraction of doubles is exact. -/
def jsSub (a b : JSNum) : JSNum :=
  match a, b with
  | some x, some y => some (x - y)
  | _, _ => none

/-- JavaScript `a + b` on numbers (`NaN` is absorbing), for operands and a result of
magnitude at most `2 ^ 53`, where the addition of doubles is exact. -/
def jsAdd (a b : JSNum) : JSNum :=
  match a, b with
  | some x, some y => some (x + y)
  | _, _ => none

/-- JavaScript `String(n)` for a non-negative integer `n`: its decimal digits. -/
def natToString (n : Nat) : String := String.mk (Nat.toDigits 10 n)

/-- JavaScript `String(x)` for a number, as a template literal or a header value prints it. -/
def numberToString : JSNum → String
  | none => "NaN"
  | some (Int.ofNat n) => natToString n
  | some (Int.negSucc n) => "-" ++ natToString (n + 1)

/-- JavaScript `String.prototype.padStart(n, c)` with a one-character filler. -/
def padStart (n : Nat) (c : Char) (s : String) : String :=
  String.mk (List.replicate (n - s.data.length) c ++ s.data)

/-- The characters matched by `\s` in a regular expression; they are also the
characters `parseInt` skips at the start of its argument. -/
def isWhiteSpace (c : Char) : Bool :=
  c.toNat = 0x20 || c.toNat = 0x09 || c.toNat = 0x0a || c.toNat = 0x0d || c.toNat = 0x0b
    || c.toNat = 0x0c || c.toNat = 0xa0 || c.toNat = 0x1680
    || (0x2000 ≤ c.toNat && c.toNat ≤ 0x200a) || c.toNat = 0x2028 || c.toNat = 0x2029
    || c.toNat = 0x202f || c.toNat = 0x205f || c.toNat = 0x3000 || c.toNat = 0xfeff

/-- The value of a run of decimal digits, most significant first. -/
def digitsValue (ds : List Char) : Nat :=
  ds.foldl (fun acc c => 10 * acc + (c.toNat - '0'.toNat)) 0

/-- JavaScript `parseInt(s, 10)` on the characters of `s`: skip leading white space, read an
optional sign, then the longest run of decimal digits; `NaN` when that run is empty. -/
def parseIntChars (s : List Char) : JSNum :=
  let t := s.dropWhile isWhiteSpace
  let signed : Bool × List Char :=
    match t with
    | [] => (false, [])
    | c :: r => if c = '-' then (true, r) else if c = '+' then (false, r) else (false, c :: r)
  let ds := signed.2.takeWhile Char.isDigit
  if ds.isEmpty then none
  else if signed.1 then some (-(digitsValue ds : Int)) else some (digitsValue ds : Int)

/-- JavaScript `parseInt(s, 10)`. -/
def parseInt (s : String) : JSNum := parseIntChars s.data

/-- JavaScript `s.replace(/pat/, rep)` for a literal pattern without the `g` flag: the first
occurrence of `pat` is replaced, the rest of the string is kept. -/
def replaceFirst (pat rep : List Char) : List Char → List Char
  | [] => if pat.isEmpty then rep else []
  | c :: cs =>
    if pat.isPrefixOf (c :: cs) then rep ++ (c :: cs).drop pat.length
    else c :: replaceFirst pat rep cs

/-- JavaScript `s.split(sep)` for a one-character separator, on character lists. -/
def splitChars (sep : Char) : List Char → List (List Char)
  | [] => [[]]
  | c :: cs =>
    if c = sep then [] :: splitChars sep cs
    else
      match splitChars sep cs with
      | [] => [[c]]
      | p :: ps => (c :: p) :: ps

/-- JavaScript `s.split(sep)` for a one-character separator. -/
def split (sep : Char) (s : String) : List String :=
  (splitChars sep s.data).map String.mk

/-- JavaScript `s.replace(/\s+/g, rep)`, read left to right: a white-space character
that starts a run is replaced by `rep`, the further characters of the run are dropped
(`inRun` says that the previous character was white space), every other character is
kept. -/
def replaceWhiteSpaceRunsFrom (rep : List Char) : Bool → List Char → List Char
  | _, [] => []
  | inRun, c :: cs =>
    if isWhiteSpace c then
      if inRun then replaceWhiteSpaceRunsFrom rep true cs
      else rep ++ replaceWhiteSpaceRunsFrom rep true cs
    else c :: replaceWhiteSpaceRunsFrom rep false cs

/-- JavaScript `s.replace(/\s+/g, rep)`: every maximal run of white space becomes
`rep`. -/
def replaceWhiteSpaceRuns (rep : List Char) (s : List Char) : List Char :=
  replaceWhiteSpaceRunsFrom rep false s

/-! ## `App.js`: `formatTime` -/

/-- Function `formatTime` of `App.js`, lines 7-8. -/
def formatTime (s : Nat) : String :=
  padStart 2 '0' (natToString (s / 60)) ++ ":" ++ padStart 2 '0' (natToString (s % 60))

/-- Reading a printed time `MM:SS` back as `60 * MM + SS`; `none` when the text does
not have that five-character shape. -/
def readTime (t : String) : Option Nat :=
  match t.data with
  | [a, b, ':', c, d] =>
    if a.isDigit && b.isDigit && c.isDigit && d.isDigit then
      some (60 * digitsValue [a, b] + digitsValue [c, d])
    else none
  | _ => none

/-- Decimal digits of a number by the usual recursion on `n / 10`; used only to
reason about `Nat.toDigits`. -/
def decDigits (n : Nat) : List Char :=
  if n < 10 then [Nat.digitChar n] else decDigits (n / 10) ++ [Nat.digitChar (n % 10)]
termination_by n
decreasing_by omega

/-! ## `server.js`: the recording store -/

/-- A row of table `recordings` (lines 40-46); `createdAt` is the text SQLite fills
in from `CURRENT_TIMESTAMP`. -/
structure RecordingRow where
  id : Nat
  filename : String
  filepath : String
  filesize : Nat
  createdAt : String
deriving DecidableEq, Repr

/-- What the handlers of `server.js` read and write: the table `recordings` in
insertion order, the counter SQLite keeps for `AUTOINCREMENT` (the largest id ever
given out), the files on disk as `(path, content)` pairs where the first pair of a
path is the current file, and the directory `uploadDir`.  `dbFault` is the error,
if any, that the database hands to a query callback as `err`. -/
structure Server where
  uploadDir : String
  rows : List RecordingRow
  seq : Nat
  disk : List (String × List Byte)
  dbFault : Option String

/-- The content of the file at `path`, `none` when there is no such file. -/
def Server.readFile (sv : Server) (path : String) : Option (List Byte) :=
  sv.disk.lookup path

/-- A value passed to `res.json`. -/
inductive Json where
  | str (s : String)
  | num (n : JSNum)
  | bool (b : Bool)
  | obj (fields : List (String × Json))

/-- What a handler does with `res`.
* `json status body` is `res.status(status).json(body)`;
* `file status headers path window` is `res.writeHead(status, headers)` followed by
  `fs.createReadStream(path, window).pipe(res)`, where `window = none` stands for a
  call without options and `some (start, end)` for the options `{ start, end }`;
* `uncaught what` is an exception thrown inside the query callback. -/
inductive Reply where
  | json (status : Nat) (body : Json)
  | file (status : Nat) (headers : List (String × String)) (path : String)
      (window : Option (JSNum × JSNum))
  | uncaught (what : String)

/-- The file multer hands to the upload handler as `req.file`. -/
structure UploadedFile where
  originalname : String
  bytes : List Byte

/-- The id SQLite gives the next row of an `AUTOINCREMENT` table: one more than the
largest id that ever existed in it. -/
def Server.nextId (sv : Server) : Nat :=
  max sv.seq ((sv.rows.map (·.id)).foldr max 0) + 1

/-- The clock readings one upload sees: `now` is `Date.now()` in multer's `filename`
callback, `timestamp` the `CURRENT_TIMESTAMP` SQLite gives the inserted row, `iso` the
`new Date().toISOString()` of the reply. -/
structure Arrival where
  now : Nat
  timestamp : String
  iso : String

/-- The name multer's `filename` callback (lines 29-32) gives an upload arriving at
time `now` (`Date.now()`). -/
def uploadFilename (now : Nat) (f : UploadedFile) : String :=
  natToString now ++ "_" ++ String.mk (replaceWhiteSpaceRuns ['_'] f.originalname.data)

/-- The path under `uploadDir` at which multer stores that upload. -/
def Server.uploadPath (sv : Server) (now : Nat) (f : UploadedFile) : String :=
  sv.uploadDir ++ "/" ++ uploadFilename now f

/-- Handler `POST /api/recordings` (lines 27-34 and 51-72) for the upload
`arrival`: multer writes the file, then the handler inserts `filename`, `filepath` and
`filesize` (SQLite fills in `id` and `createdAt`) and answers 201 with the created
record. -/
def postRecording (sv : Server) (arrival : Arrival) (file : Option UploadedFile) :
    Server × Reply :=
  match file with
  | none => (sv, .json 400 (.obj [("message", .str "No file uploaded")]))
  | some f =>
    let filename := uploadFilename arrival.now f
    let filepath := sv.uploadPath arrival.now f
    let size := f.bytes.length
    let sv1 : Server := { sv with disk := (filepath, f.bytes) :: sv.disk }
    match sv1.dbFault with
    | some msg => (sv1, .json 500 (.obj [("error", .str msg)]))
    | none =>
      let lastID := sv1.nextId
      let row : RecordingRow := ⟨lastID, filename, filepath, size, arrival.timestamp⟩
      ({ sv1 with rows := sv1.rows ++ [row], seq := lastID },
        .json 201 (.obj [("message", .str "Recording uploaded successfully"),
          ("recording", .obj [("id", .num (some lastID)), ("filename", .str filename),
            ("filepath", .str filepath), ("filesize", .num (some size)),
            ("createdAt", .str arrival.iso)])]))

/-- A run of uploads, each an arrival and a file. -/
def uploads (sv : Server) (l : List (Arrival × UploadedFile)) : Server :=
  l.foldl (fun s u => (postRecording s u.1 (some u.2)).1) sv

/-- The query of line 85, `SELECT * FROM recordings WHERE id = ?`; `id` is the route
parameter read as the integer SQLite compares it with. -/
def Server.get (sv : Server) (id : Nat) : Except String (Option RecordingRow) :=
  match sv.dbFault with
  | some msg => .error msg
  | none => .ok (sv.rows.find? (fun r => r.id = id))

/-- JavaScript truthiness of `req.headers.range`: present and not the empty string. -/
def truthy : Option String → Bool
  | none => false
  | some s => !s.data.isEmpty

/-- Lines 96-98 of the range branch: `start` and `end` as read from the header
`range` for a file of `fileSize` bytes. -/
def rangeBounds (range : String) (fileSize : JSNum) : JSNum × JSNum :=
  let parts := split '-' (String.mk (replaceFirst "bytes=".data [] range.data))
  let start := parseInt (parts.headD "")
  let end_ :=
    match parts.tail.head? with
    | some p => if p.data.isEmpty then jsSub fileSize (some 1) else parseInt p
    | none => jsSub fileSize (some 1)
  (start, end_)

/-- Handler `GET /api/recordings/:id` (lines 83-116). -/
def getRecording (sv : Server) (id : Nat) (range : Option String) : Reply :=
  match sv.get id with
  | .error msg => .json 500 (.obj [("error", .str msg)])
  | .ok none => .json 404 (.obj [("message", .str "Recording not found")])
  | .ok (some row) =>
    let videoPath := row.filepath
    match sv.readFile videoPath with
    | none => .uncaught "ENOENT"
    | some content =>
      let fileSize : JSNum := some (content.length : Int)
      if truthy range then
        let start := (rangeBounds (range.getD "") fileSize).1
        let end_ := (rangeBounds (range.getD "") fileSize).2
        let chunkSize := jsAdd (jsSub end_ start) (some 1)
        .file 206
          [("Content-Range",
              "bytes " ++ numberToString start ++ "-" ++ numberToString end_ ++ "/" ++
                numberToString fileSize),
            ("Accept-Ranges", "bytes"),
            ("Content-Length", numberToString chunkSize),
            ("Content-Type", "video/webm")]
          videoPath (some (start, end_))
      else
        .file 200
          [("Content-Length", numberToString fileSize), ("Content-Type", "video/webm")]
          videoPath none

/-- Node's `fs.createReadStream(path, options)` on a file with content `content`,
after its documentation: without options the stream is the whole file; with
`{ start, end }` both bounds are inclusive and count from 0, reading stops at the end
of the file, and bounds that are not integers with `0 ≤ start ≤ end` make the call
throw. -/
def createReadStream (content : List Byte) : Option (JSNum × JSNum) → Except String (List Byte)
  | none => .ok content
  | some (some s, some e) =>
    if 0 ≤ s ∧ s ≤ e then .ok ((content.drop s.toNat).take (e - s + 1).toNat)
    else .error "ERR_OUT_OF_RANGE"
  | some _ => .error "ERR_OUT_OF_RANGE"

/-- The bytes a reply pipes into the response body. -/
def Reply.streamed (sv : Server) : Reply → Except String (List Byte)
  | .file _ _ path window =>
    match sv.readFile path with
    | some content => createReadStream content window
    | none => .error "ENOENT"
  | _ => .ok []

/-- The partial-content reply of the range branch, for offsets `start` and `end_` of
a file of `total` bytes at `path`. -/
def partialContent (path : String) (start end_ : Int) (total : Nat) : Reply :=
  .file 206
    [("Content-Range",
        "bytes " ++ numberToString (some start) ++ "-" ++ numberToString (some end_) ++ "/" ++
          natToString total),
      ("Accept-Ranges", "bytes"),
      ("Content-Length", numberToString (some (end_ - start + 1))),
      ("Content-Type", "video/webm")]
    path (some (some start, some end_))

/-- The full-content reply of the branch without a range. -/
def fullContent (path : String) (total : Nat) : Reply :=
  .file 200 [("Content-Length", natToString total), ("Content-Type", "video/webm")] path none

/-- A file of 10,485,760 zero bytes. -/
def tenMiBContent : List Byte := List.replicate 10485760 0

/-- A server holding one uploaded recording of 10,485,760 bytes. -/
def tenMiB : Server :=
  { uploadDir := "/srv/uploads"
    rows := [⟨1, "1700000000000_recording.webm", "/srv/uploads/1700000000000_recording.webm",
      10485760, "2023-11-14 22:13:20"⟩]
    seq := 1
    disk := [("/srv/uploads/1700000000000_recording.webm", tenMiBContent)]
    dbFault := none }

/-- A server holding one recording of `n` zero bytes. -/
def oneFile (n : Nat) : Server :=
  { uploadDir := "/srv/uploads"
    rows := [⟨1, "1_a.webm", "/srv/uploads/1_a.webm", n, "1970-01-01 00:00:00"⟩]
    seq := 1
    disk := [("/srv/uploads/1_a.webm", List.replicate n 0)]
    dbFault := none }

/-- A server with no recording yet. -/
def emptyServer : Server :=
  { uploadDir := "/srv/uploads", rows := [], seq := 0, disk := [], dbFault := none }

/-- Two uploads named `a.webm` arriving in the same millisecond, the first of 100
bytes and the second of 50 bytes. -/
def overwritten : Server :=
  uploads emptyServer
    [(⟨5, "1970-01-01 00:00:00", "1970-01-01T00:00:00.005Z"⟩,
        ⟨"a.webm", List.replicate 100 0⟩),
      (⟨5, "1970-01-01 00:00:00", "1970-01-01T00:00:00.005Z"⟩,
        ⟨"a.webm", List.replicate 50 0⟩)]

/-! ## `App.js`: the capture session -/

/-- Identity of a `MediaStreamTrack` object. -/
abbrev TrackId := Nat

/-- The `kind` of a track. -/
inductive TrackKind where
  | video
  | audio
deriving DecidableEq, Repr

/-- A `MediaStreamTrack`: the object `id` with its kind.  Two streams that hold the
same track hold the same `id`. -/
structure Track where
  id : TrackId
  kind : TrackKind
deriving DecidableEq, Repr

/-- A `MediaStream`: the tracks `getTracks()` returns. -/
structure MediaStream where
  tracks : List Track
deriving DecidableEq, Repr

/-- Browser `stream.getVideoTracks()`. -/
def MediaStream.getVideoTracks (s : MediaStream) : List Track :=
  s.tracks.filter (fun t => t.kind = .video)

/-- Browser `stream.getAudioTracks()`. -/
def MediaStream.getAudioTracks (s : MediaStream) : List Track :=
  s.tracks.filter (fun t => t.kind = .audio)

/-- A `Blob`: its bytes and its media type. -/
structure Blob where
  bytes : List Byte
  type : String
deriving DecidableEq, Repr

/-- Browser `blob.size`. -/
def Blob.size (b : Blob) : Nat := b.bytes.length

/-- Browser `new Blob(parts, { type })`: the parts' bytes in order. -/
def Blob.ofParts (parts : List Blob) (type : String) : Blob :=
  ⟨parts.flatMap (fun p => p.bytes), type⟩

/-- A `MediaRecorder` created by `startRecording`, together with the array `chunks`
that its two handlers close over (lines 54-65).  `recording` is `state ===
"recording"` (otherwise the state is `"inactive"`; the code never pauses), and
`stopQueued` says that the recorder has been inactivated and its `stop` event has not
been dispatched yet. -/
structure MediaRecorder where
  stream : MediaStream
  recording : Bool
  stopQueued : Bool
  chunks : List Blob
deriving DecidableEq, Repr

/-- A running `setInterval` timer of line 76: its id and the value of the state
variable `mediaRecorder` that the `stopRecording` called by its callback closes over,
that is, the value in the render whose `startRecording` created the timer. -/
structure Interval where
  id : Nat
  boundRecorder : Option Nat
deriving DecidableEq, Repr

/-- The component `App` with the browser objects it reaches.
* React state: `isRecording`, `seconds`, `blobUrl`, `blobObj`, `mediaRecorder`
  (an index into `recorders`), `error`.  The list `recordings` of uploaded files takes
  no part in a capture session and is left out.
* Refs: `timerRef`, `streamsRef`.
* Browser: the recorders created so far, the running intervals, the log of
  `track.stop()` calls, the tracks whose source ended on its own, the number of
  `console.error` calls, and the counters from which interval ids and object URLs are
  drawn.
* `stopThrowsWhenInactive` fixes what `MediaRecorder.stop()` does on an inactive
  recorder: throw `InvalidStateError` (older browsers) or return (current
  standard). -/
structure App where
  isRecording : Bool
  seconds : Nat
  blobUrl : Option Nat
  blobObj : Option Blob
  mediaRecorder : Option Nat
  error : String
  timerRef : Option Nat
  streamsRef : List MediaStream
  recorders : List MediaRecorder
  intervals : List Interval
  stopCalls : List TrackId
  endedBySource : List TrackId
  consoleErrors : Nat
  nextTimer : Nat
  nextUrl : Nat
  stopThrowsWhenInactive : Bool
deriving DecidableEq, Repr

/-- The component right after mounting (lines 11-20). -/
def App.init (stopThrows : Bool) : App :=
  { isRecording := false, seconds := 0, blobUrl := none, blobObj := none,
    mediaRecorder := none, error := "", timerRef := none, streamsRef := [],
    recorders := [], intervals := [], stopCalls := [], endedBySource := [],
    consoleErrors := 0, nextTimer := 0, nextUrl := 0, stopThrowsWhenInactive := stopThrows }

/-- A track's `readyState` is `"live"`: nobody called `stop()` on it and its source
has not ended. -/
def App.live (a : App) (t : TrackId) : Bool :=
  !a.stopCalls.contains t && !a.endedBySource.contains t

/-- The recorder `r` exists and is recording. -/
def App.isActive (a : App) (r : Nat) : Bool :=
  match a.recorders[r]? with
  | some mr => mr.recording
  | none => false

/-- Browser `clearInterval(id)`: the timer `id`, if it is running, runs no more. -/
def clearInterval (id : Option Nat) (a : App) : App :=
  match id with
  | none => a
  | some t => { a with intervals := a.intervals.filter (fun iv => iv.id ≠ t) }

/-- Browser `recorder.stop()` on recorder `r`: a recording recorder becomes inactive and its
`stop` event is queued; on an inactive recorder the call throws (`none`) or returns,
as `stopThrowsWhenInactive` says. -/
def recorderStop (r : Nat) (a : App) : Option App :=
  match a.recorders[r]? with
  | none => none
  | some mr =>
    if mr.recording then
      some { a with recorders := a.recorders.set r { mr with recording := false, stopQueued := true } }
    else if a.stopThrowsWhenInactive then none
    else some a

/-- The tracks reached by `streams.forEach((s) => s.getTracks().forEach(...))`
(lines 97-99), in the order of the calls. -/
def tracksOf (streams : List MediaStream) : List TrackId :=
  streams.flatMap (fun s => s.tracks.map Track.id)

/-- Function `stopRecording` (lines 91-104) of a render in which the state variable
`mediaRecorder` had the value `bound`. -/
def stopRecording (bound : Option Nat) (a : App) : App :=
  match bound with
  | none => a
  | some r =>
    match recorderStop r a with
    | none => { a with consoleErrors := a.consoleErrors + 1 }
    | some a1 =>
      let a2 := { a1 with isRecording := false }
      let a3 := clearInterval a2.timerRef a2
      let a4 := { a3 with stopCalls := a3.stopCalls ++ tracksOf a3.streamsRef }
      { a4 with streamsRef := [] }

/-- The composite stream of lines 49-52: the display's video tracks followed by the
microphone's audio tracks. -/
def mixed (display mic : MediaStream) : MediaStream :=
  ⟨display.getVideoTracks ++ mic.getAudioTracks⟩

/-- What the browser answers during one run of `startRecording`: the results of
`getDisplayMedia` and `getUserMedia` (a stream, or the message of the rejection), and
whether `new MediaRecorder(...)` and `mr.start(250)` throw (the message) or not. -/
structure StartEnv where
  display : Except String MediaStream
  mic : Except String MediaStream
  construct : Except String Unit
  start : Except String Unit

/-- The `catch` block of `startRecording` (lines 84-87) for an error with message
`msg`. -/
def startFailed (msg : String) (a : App) : App :=
  { a with
    consoleErrors := a.consoleErrors + 1
    error := if msg.data.isEmpty then "Failed to start recording" else msg }

/-- Function `startRecording` (lines 37-88), run to completion against the browser answers
`env`.  The `stopRecording` that the timer callback calls is the one of the render
that created this `startRecording`; that render saw `a.mediaRecorder`. -/
def startRecording (a : App) (env : StartEnv) : App :=
  let bound := a.mediaRecorder
  let a0 := { a with error := "" }
  match env.display with
  | .error msg => startFailed msg a0
  | .ok display =>
    match env.mic with
    | .error msg => startFailed msg a0
    | .ok mic =>
      let mixedStream := mixed display mic
      match env.construct with
      | .error msg => startFailed msg a0
      | .ok _ =>
        let mr := a0.recorders.length
        let a1 := { a0 with
          recorders := a0.recorders ++ [(⟨mixedStream, false, false, []⟩ : MediaRecorder)] }
        let a2 := { a1 with streamsRef := [display, mic, mixedStream] }
        match env.start with
        | .error msg => startFailed msg a2
        | .ok _ =>
          let a3 := { a2 with
            recorders := a2.recorders.set mr (⟨mixedStream, true, false, []⟩ : MediaRecorder) }
          let a4 := { a3 with mediaRecorder := some mr, isRecording := true, seconds := 0 }
          { a4 with
            intervals := a4.intervals ++ [(⟨a4.nextTimer, bound⟩ : Interval)]
            timerRef := some a4.nextTimer
            nextTimer := a4.nextTimer + 1 }

/-- The interval callback of lines 76-83 for the timer `t`: the updater passed to
`setSeconds` calls the bound `stopRecording` when `s + 1 >= 180` and returns
`s + 1`.  A cleared timer does not fire. -/
def tick (t : Nat) (a : App) : App :=
  match a.intervals.find? (fun iv => iv.id = t) with
  | none => a
  | some iv =>
    let s := a.seconds
    let a1 := if s + 1 ≥ 180 then stopRecording iv.boundRecorder a else a
    { a1 with seconds := s + 1 }

/-- Handler `mr.ondataavailable` (lines 57-59) of recorder `r` for an event carrying `data`. -/
def ondataavailable (r : Nat) (data : Blob) (a : App) : App :=
  match a.recorders[r]? with
  | none => a
  | some mr =>
    if data.size > 0 then
      { a with recorders := a.recorders.set r { mr with chunks := mr.chunks ++ [data] } }
    else a

/-- Handler `mr.onstop` (lines 60-65) of recorder `r`. -/
def onstop (r : Nat) (a : App) : App :=
  match a.recorders[r]? with
  | none => a
  | some mr =>
    let blob := Blob.ofParts mr.chunks "video/webm"
    { a with blobObj := some blob, blobUrl := some a.nextUrl, nextUrl := a.nextUrl + 1 }

/-- Function `resetPreview` (lines 106-111). -/
def resetPreview (a : App) : App :=
  { a with blobUrl := none, blobObj := none, seconds := 0 }

/-- What can happen to a mounted component. -/
inductive Event where
  /-- A click on "Start Recording"; the browser answers `env`. -/
  | clickStart (env : StartEnv)
  /-- A click on "Stop". -/
  | clickStop
  /-- The interval `t` fires. -/
  | tick (t : Nat)
  /-- Recorder `r` delivers a chunk. -/
  | dataavailable (r : Nat) (data : Blob)
  /-- Recorder `r` dispatches its queued `stop` event. -/
  | stop (r : Nat)
  /-- The source of track `t` ends on its own (for a display track: the user stops
  sharing from the browser's own control). -/
  | trackEnded (t : TrackId)
  /-- The browser inactivates recorder `r` because every track of its stream has
  ended. -/
  | recorderEnded (r : Nat)
  /-- A click on "Discard". -/
  | discard

/-- One event.  The buttons are rendered as in lines 160-174: "Start Recording" while
`isRecording` is false, "Stop" while it is true, each wired to the handler of the
current render.  No handler of the component is registered for a track's `ended`
event, so `trackEnded` runs no component code. -/
def step (a : App) : Event → App
  | .clickStart env => if a.isRecording then a else startRecording a env
  | .clickStop => if a.isRecording then stopRecording a.mediaRecorder a else a
  | .tick t => tick t a
  | .dataavailable r data => ondataavailable r data a
  | .stop r =>
    match a.recorders[r]? with
    | none => a
    | some mr =>
      if mr.stopQueued then
        onstop r { a with recorders := a.recorders.set r { mr with stopQueued := false } }
      else a
  | .trackEnded t => { a with endedBySource := a.endedBySource ++ [t] }
  | .recorderEnded r =>
    match a.recorders[r]? with
    | none => a
    | some mr =>
      if mr.recording && mr.stream.tracks.all (fun t => !a.live t.id) then
        { a with
          recorders := a.recorders.set r { mr with recording := false, stopQueued := true } }
      else a
  | .discard => resetPreview a

/-- A sequence of events, in order. -/
def run (a : App) (evs : List Event) : App := evs.foldl step a

/-- A display capture with a video track and an incidental audio track. -/
def displayStream : MediaStream := ⟨[⟨0, .video⟩, ⟨1, .audio⟩]⟩

/-- A microphone capture. -/
def micStream : MediaStream := ⟨[⟨2, .audio⟩]⟩

/-- Browser answers under which `startRecording` succeeds with the streams `display`
and `mic`. -/
def StartEnv.ok (display mic : MediaStream) : StartEnv :=
  { display := .ok display, mic := .ok mic, construct := .ok (), start := .ok () }

/-- Browser answers under which `startRecording` succeeds. -/
def granted : StartEnv := StartEnv.ok displayStream micStream

/-- The chunks of recorder `r`, empty when there is no such recorder. -/
def App.chunks (a : App) (r : Nat) : List Blob :=
  match a.recorders[r]? with
  | some mr => mr.chunks
  | none => []

/-- A session on `display` and `mic` started from `a0` by a click on "Start
Recording", during which the recorder delivers `chunks`, and which the user ends with
a click on "Stop". -/
def stoppedByUser (a0 : App) (display mic : MediaStream) (chunks : List Blob) : App :=
  run a0 ([.clickStart (StartEnv.ok display mic)]
    ++ chunks.map (Event.dataavailable a0.recorders.length) ++ [.clickStop])

/-! # Theorems -/

/-! ## Decimal printing and reading -/

theorem decDigits_small (n : Nat) (h : n < 10) : decDigits n = [Nat.digitChar n] := by
  rw [decDigits, if_pos h]

theorem decDigits_large (n : Nat) (h : 10 ≤ n) :
    decDigits n = decDigits (n / 10) ++ [Nat.digitChar (n % 10)] := by
  rw [decDigits, if_neg (by omega)]

theorem toDigitsCore_eq (fuel : Nat) :
    ∀ (n : Nat) (acc : List Char), n < fuel →
      Nat.toDigitsCore 10 fuel n acc = decDigits n ++ acc := by
  induction fuel with
  | zero => intro n acc h; omega
  | succ f ih =>
    intro n acc h
    simp only [Nat.toDigitsCore]
    by_cases h0 : n / 10 = 0
    · have hn : n < 10 := by omega
      rw [if_pos h0, decDigits_small n hn, Nat.mod_eq_of_lt hn]
      rfl
    · have hn : 10 ≤ n := by omega
      rw [if_neg h0, ih (n / 10) _ (by omega), decDigits_large n hn]
      simp

theorem toDigits_eq (n : Nat) : Nat.toDigits 10 n = decDigits n := by
  unfold Nat.toDigits
  rw [toDigitsCore_eq (n + 1) n [] (Nat.lt_succ_self n)]
  simp

theorem digitChar_isDigit : ∀ d, d < 10 → (Nat.digitChar d).isDigit = true := by decide

theorem digitChar_value : ∀ d, d < 10 → (Nat.digitChar d).toNat - '0'.toNat = d := by decide

theorem digitsValue_snoc (ds : List Char) (c : Char) :
    digitsValue (ds ++ [c]) = 10 * digitsValue ds + (c.toNat - '0'.toNat) := by
  simp [digitsValue, List.foldl_append]

theorem decDigits_props (n : Nat) :
    (∀ c ∈ decDigits n, c.isDigit = true) ∧ digitsValue (decDigits n) = n ∧ decDigits n ≠ [] := by
  induction n using Nat.strong_induction_on with
  | _ n ih =>
    by_cases h : n < 10
    · rw [decDigits_small n h]
      refine ⟨?_, ?_, by simp⟩
      · intro c hc
        rw [List.mem_singleton] at hc
        rw [hc]; exact digitChar_isDigit n h
      · simp only [digitsValue, List.foldl]
        rw [digitChar_value n h]; omega
    · have hge : 10 ≤ n := by omega
      obtain ⟨h1, h2, _⟩ := ih (n / 10) (by omega)
      have hm : n % 10 < 10 := Nat.mod_lt _ (by decide)
      rw [decDigits_large n hge]
      refine ⟨?_, ?_, by simp⟩
      · intro c hc
        rw [List.mem_append, List.mem_singleton] at hc
        rcases hc with hc | hc
        · exact h1 c hc
        · rw [hc]; exact digitChar_isDigit _ hm
      · rw [digitsValue_snoc, h2, digitChar_value _ hm]; omega

theorem decDigits_length (n : Nat) (h : 100 ≤ n) : 3 ≤ (decDigits n).length := by
  rw [decDigits_large n (by omega), decDigits_large (n / 10) (by omega)]
  have := (decDigits_props (n / 10 / 10)).2.2
  have hpos : 0 < (decDigits (n / 10 / 10)).length := List.length_pos.mpr this
  simp only [List.length_append, List.length_singleton]
  omega

/-! ## `formatTime` -/

theorem padStart_two_digits :
    ∀ m, m < 100 →
      padStart 2 '0' (natToString m) = String.mk [Nat.digitChar (m / 10), Nat.digitChar (m % 10)] := by
  decide

theorem padStart_long (n : Nat) (c : Char) (s : String) (h : n ≤ s.data.length) :
    padStart n c s = s := by
  cases s with
  | mk d =>
    simp only [padStart]
    rw [Nat.sub_eq_zero_of_le h]
    rfl

theorem formatTime_small (s : Nat) (hs : s ≤ 5999) :
    formatTime s = String.mk [Nat.digitChar (s / 60 / 10), Nat.digitChar (s / 60 % 10), ':',
      Nat.digitChar (s % 60 / 10), Nat.digitChar (s % 60 % 10)] := by
  unfold formatTime
  rw [padStart_two_digits (s / 60) (by omega), padStart_two_digits (s % 60) (by omega)]
  rfl

theorem readTime_formatTime (s : Nat) (hs : s ≤ 5999) : readTime (formatTime s) = some s := by
  rw [formatTime_small s hs]
  have a1 := digitChar_isDigit (s / 60 / 10) (by omega)
  have a2 := digitChar_isDigit (s / 60 % 10) (by omega)
  have a3 := digitChar_isDigit (s % 60 / 10) (by omega)
  have a4 := digitChar_isDigit (s % 60 % 10) (by omega)
  have b1 := digitChar_value (s / 60 / 10) (by omega)
  have b2 := digitChar_value (s / 60 % 10) (by omega)
  have b3 := digitChar_value (s % 60 / 10) (by omega)
  have b4 := digitChar_value (s % 60 % 10) (by omega)
  simp only [readTime, a1, a2, a3, a4, Bool.and_self, if_true, digitsValue, List.foldl, b1, b2,
    b3, b4]
  congr 1
  omega

/-- C10. For `0 ≤ s ≤ 5999`, `formatTime s` is the five characters `MM:SS` where `MM`
are the two zero-padded decimal digits of `s / 60` and `SS` those of `s % 60`
(which is below 60); reading the text back gives `60 * MM + SS = s`, so `formatTime`
is injective on that range; the range contains every value a session can show
(`0..180`) and `formatTime 180` is `"03:00"`; from 6000 on the minutes field is the
untruncated decimal of `s / 60`, which has at least three digits. -/
theorem formatTime_spec (s : Nat) (hs : s ≤ 5999) :
    (formatTime s).data =
        [Nat.digitChar (s / 60 / 10), Nat.digitChar (s / 60 % 10), ':',
          Nat.digitChar (s % 60 / 10), Nat.digitChar (s % 60 % 10)]
      ∧ (formatTime s).length = 5
      ∧ s % 60 < 60
      ∧ readTime (formatTime s) = some s
      ∧ (∀ t, t ≤ 5999 → formatTime t = formatTime s → t = s)
      ∧ 180 ≤ 5999 ∧ formatTime 180 = "03:00"
      ∧ (∀ u, 6000 ≤ u →
          formatTime u = natToString (u / 60) ++ ":" ++
              String.mk [Nat.digitChar (u % 60 / 10), Nat.digitChar (u % 60 % 10)]
            ∧ 3 ≤ (natToString (u / 60)).length) := by
  refine ⟨?_, ?_, Nat.mod_lt _ (by decide), readTime_formatTime s hs, ?_, by decide, by decide, ?_⟩
  · rw [formatTime_small s hs]
  · rw [formatTime_small s hs]; rfl
  · intro t ht heq
    have h1 := readTime_formatTime t ht
    rw [heq, readTime_formatTime s hs] at h1
    exact (Option.some.inj h1).symm
  · intro u hu
    have hlen : 3 ≤ (natToString (u / 60)).length := by
      show 3 ≤ (Nat.toDigits 10 (u / 60)).length
      rw [toDigits_eq]
      exact decDigits_length _ (by omega)
    refine ⟨?_, hlen⟩
    unfold formatTime
    rw [padStart_long 2 '0' (natToString (u / 60)) (by exact Nat.le_of_succ_le hlen),
      padStart_two_digits (u % 60) (by omega)]

/-- C10 at the session maximum: 180 seconds print as `03:00` and read back as 180. -/
theorem formatTime_spec_witness :
    (formatTime 180).data = ['0', '3', ':', '0', '0'] ∧ readTime (formatTime 180) = some 180 :=
  ⟨(formatTime_spec 180 (by decide)).1, (formatTime_spec 180 (by decide)).2.2.2.1⟩


/-! ## Parsing a range header -/

theorem isDigit_bounds (c : Char) (h : c.isDigit = true) : 48 ≤ c.toNat ∧ c.toNat ≤ 57 := by
  simp only [Char.isDigit, Bool.and_eq_true, decide_eq_true_eq] at h
  exact ⟨h.1, h.2⟩

theorem isDigit_not_special (c : Char) (h : c.isDigit = true) :
    isWhiteSpace c = false ∧ c ≠ '-' ∧ c ≠ '+' := by
  obtain ⟨h1, h2⟩ := isDigit_bounds c h
  refine ⟨?_, ?_, ?_⟩
  · simp only [isWhiteSpace, Bool.or_eq_false_iff, Bool.and_eq_false_iff, decide_eq_false_iff_not]
    omega
  · intro hc; rw [hc] at h1; exact absurd h1 (by decide)
  · intro hc; rw [hc] at h1; exact absurd h1 (by decide)

theorem parseIntChars_digits (ds : List Char) (hne : ds ≠ [])
    (hd : ∀ c ∈ ds, c.isDigit = true) : parseIntChars ds = some (digitsValue ds : Int) := by
  cases ds with
  | nil => exact absurd rfl hne
  | cons c r =>
    obtain ⟨hw, hm, hp⟩ := isDigit_not_special c (hd c (List.mem_cons_self c r))
    have htake : (c :: r).takeWhile Char.isDigit = c :: r :=
      List.takeWhile_eq_self_iff.mpr hd
    simp only [parseIntChars, List.dropWhile_cons, hw, Bool.false_eq_true, if_false, hm, hp, htake,
      List.isEmpty_cons]

theorem parseInt_natToString (n : Nat) : parseInt (natToString n) = some (n : Int) := by
  have h := decDigits_props n
  show parseIntChars (Nat.toDigits 10 n) = _
  rw [toDigits_eq, parseIntChars_digits _ h.2.2 h.1, h.2.1]

theorem replaceFirst_prefix (pat rest : List Char) (hne : pat ≠ []) :
    replaceFirst pat [] (pat ++ rest) = rest := by
  cases pat with
  | nil => exact absurd rfl hne
  | cons c p =>
    have hp : (c :: p).isPrefixOf (c :: (p ++ rest)) = true :=
      List.isPrefixOf_iff_prefix.mpr (List.prefix_append (c :: p) rest)
    show replaceFirst (c :: p) [] (c :: (p ++ rest)) = rest
    rw [replaceFirst, if_pos hp]
    simp

theorem splitChars_no_sep (sep : Char) (l : List Char) (h : sep ∉ l) :
    splitChars sep l = [l] := by
  induction l with
  | nil => rfl
  | cons c cs ih =>
    have hc : c ≠ sep := fun e => h (e ▸ List.mem_cons_self c cs)
    have hcs : sep ∉ cs := fun e => h (List.mem_cons_of_mem c e)
    simp only [splitChars, hc, if_false, ih hcs]

theorem splitChars_first (sep : Char) (l r : List Char) (h : sep ∉ l) :
    splitChars sep (l ++ sep :: r) = l :: splitChars sep r := by
  induction l with
  | nil => simp [splitChars]
  | cons c cs ih =>
    have hc : c ≠ sep := fun e => h (e ▸ List.mem_cons_self c cs)
    have hcs : sep ∉ cs := fun e => h (List.mem_cons_of_mem c e)
    show splitChars sep (c :: (cs ++ sep :: r)) = _
    rw [splitChars, if_neg hc, ih hcs]

theorem toDigits_no_dash (n : Nat) : '-' ∉ Nat.toDigits 10 n := by
  intro h
  rw [toDigits_eq] at h
  exact (isDigit_not_special _ ((decDigits_props n).1 _ h)).2.1 rfl

theorem toDigits_ne_nil (n : Nat) : Nat.toDigits 10 n ≠ [] := by
  rw [toDigits_eq]; exact (decDigits_props n).2.2

/-- The parts of `bytes=<start>-<end>` after `replace` and `split`. -/
theorem range_parts_closed (s e : Nat) :
    split '-' (String.mk (replaceFirst "bytes=".data []
        ("bytes=" ++ natToString s ++ "-" ++ natToString e).data)) =
      [natToString s, natToString e] := by
  have hd : ("bytes=" ++ natToString s ++ "-" ++ natToString e).data =
      "bytes=".data ++ (Nat.toDigits 10 s ++ '-' :: Nat.toDigits 10 e) := by
    simp [natToString, String.data_append]
  rw [hd, replaceFirst_prefix _ _ (by decide)]
  simp only [split, splitChars_first '-' _ _ (toDigits_no_dash s),
    splitChars_no_sep '-' _ (toDigits_no_dash e), List.map, natToString]

/-- The parts of `bytes=<start>-` after `replace` and `split`. -/
theorem range_parts_open (s : Nat) :
    split '-' (String.mk (replaceFirst "bytes=".data []
        ("bytes=" ++ natToString s ++ "-").data)) = [natToString s, ""] := by
  have hd : ("bytes=" ++ natToString s ++ "-").data =
      "bytes=".data ++ (Nat.toDigits 10 s ++ '-' :: []) := by
    simp [natToString, String.data_append]
  rw [hd, replaceFirst_prefix _ _ (by decide)]
  simp only [split, splitChars_first '-' _ _ (toDigits_no_dash s), splitChars, List.map,
    natToString]

theorem truthy_range (s : Nat) (rest : String) :
    truthy (some ("bytes=" ++ natToString s ++ rest)) = true := by
  simp [truthy, String.data_append]

/-! ## `GET /api/recordings/:id` with a range -/

theorem numberToString_nat (n : Nat) : numberToString (some (n : Int)) = natToString n := rfl

theorem rangeBounds_closed (s e : Nat) (fileSize : JSNum) :
    rangeBounds ("bytes=" ++ natToString s ++ "-" ++ natToString e) fileSize =
      (some (s : Int), some (e : Int)) := by
  have he : (natToString e).data.isEmpty = false := by
    cases h : Nat.toDigits 10 e with
    | nil => exact absurd h (toDigits_ne_nil e)
    | cons c r => simp [natToString, h]
  unfold rangeBounds
  rw [range_parts_closed]
  simp only [List.headD_cons, List.tail_cons, List.head?_cons, he, Bool.false_eq_true, if_false,
    parseInt_natToString]

theorem rangeBounds_open (s : Nat) (fileSize : JSNum) :
    rangeBounds ("bytes=" ++ natToString s ++ "-") fileSize =
      (some (s : Int), jsSub fileSize (some 1)) := by
  have he : ("" : String).data.isEmpty = true := rfl
  unfold rangeBounds
  rw [range_parts_open]
  simp only [List.headD_cons, List.tail_cons, List.head?_cons, he, if_true,
    parseInt_natToString]

/-- The reply to `bytes=<s>-<e>`, whatever the two numbers are. -/
theorem getRecording_closed (sv : Server) (id : Nat) (row : RecordingRow) (content : List Byte)
    (s e : Nat) (hrow : sv.get id = .ok (some row))
    (hfile : sv.readFile row.filepath = some content) :
    getRecording sv id (some ("bytes=" ++ natToString s ++ "-" ++ natToString e)) =
      partialContent row.filepath s e content.length := by
  have ht : truthy (some ("bytes=" ++ natToString s ++ "-" ++ natToString e)) = true := by
    have := truthy_range s ("-" ++ natToString e)
    simpa [String.append_assoc] using this
  simp only [getRecording, hrow, hfile, ht, if_true, Option.getD_some, rangeBounds_closed,
    partialContent, jsSub, jsAdd, numberToString_nat]

/-- The reply to `bytes=<s>-`, whatever the number is. -/
theorem getRecording_open (sv : Server) (id : Nat) (row : RecordingRow) (content : List Byte)
    (s : Nat) (hrow : sv.get id = .ok (some row))
    (hfile : sv.readFile row.filepath = some content) :
    getRecording sv id (some ("bytes=" ++ natToString s ++ "-")) =
      partialContent row.filepath s ((content.length : Int) - 1) content.length := by
  have ht : truthy (some ("bytes=" ++ natToString s ++ "-")) = true := truthy_range s "-"
  simp only [getRecording, hrow, hfile, ht, if_true, Option.getD_some, rangeBounds_open,
    partialContent, jsSub, jsAdd, numberToString_nat]

theorem streamed_partialContent (sv : Server) (path : String) (content : List Byte)
    (s e : Nat) (hfile : sv.readFile path = some content) (hse : s ≤ e) :
    (partialContent path s e content.length).streamed sv =
      .ok ((content.drop s).take (e - s + 1)) := by
  have h1 : (0 : Int) ≤ (s : Int) ∧ (s : Int) ≤ (e : Int) := ⟨by omega, by omega⟩
  have h2 : ((e : Int) - (s : Int) + 1).toNat = e - s + 1 := by omega
  simp only [partialContent, Reply.streamed, hfile, createReadStream, h1, and_self, if_true, h2,
    Int.toNat_ofNat]

theorem slice_length (content : List Byte) (s e : Nat) (hse : s ≤ e) (he : e < content.length) :
    ((content.drop s).take (e - s + 1)).length = e - s + 1 := by
  rw [List.length_take, List.length_drop]
  omega

theorem slice_get (content : List Byte) (s n i : Nat) (hi : i < n) :
    ((content.drop s).take n)[i]? = content[s + i]? := by
  rw [List.getElem?_take_of_lt hi, List.getElem?_drop]

theorem partialContent_nat (path : String) (s e total : Nat) (hse : s ≤ e) :
    partialContent path s e total =
      .file 206
        [("Content-Range",
            "bytes " ++ natToString s ++ "-" ++ natToString e ++ "/" ++ natToString total),
          ("Accept-Ranges", "bytes"),
          ("Content-Length", natToString (e - s + 1)),
          ("Content-Type", "video/webm")]
        path (some (some (s : Int), some (e : Int))) := by
  have h : ((e : Int) - (s : Int) + 1) = ((e - s + 1 : Nat) : Int) := by omega
  simp only [partialContent, h, numberToString_nat]

/-- C1. For an existing recording whose file has `fileSize ≥ 1` bytes (a safe
integer) and decimal integers `0 ≤ start ≤ end ≤ fileSize - 1`, the header
`bytes=<start>-<end>` is answered with status 206, `Content-Range: bytes
<start>-<end>/<fileSize>`, `Accept-Ranges: bytes`, `Content-Length: end - start + 1`
and a read window `{start, end}` whose bytes are exactly the inclusive slice
`[start, end]` of the file; the header `bytes=<start>-` is answered the same way with
`end = fileSize - 1`. -/
theorem getRecording_valid_range (sv : Server) (id : Nat) (row : RecordingRow)
    (content : List Byte) (start end_ : Nat)
    (hrow : sv.get id = .ok (some row)) (hfile : sv.readFile row.filepath = some content)
    (hsize : 1 ≤ content.length) (_hsafe : content.length ≤ 2 ^ 53)
    (hse : start ≤ end_) (hef : end_ ≤ content.length - 1) :
    getRecording sv id (some ("bytes=" ++ natToString start ++ "-" ++ natToString end_)) =
        .file 206
          [("Content-Range",
              "bytes " ++ natToString start ++ "-" ++ natToString end_ ++ "/" ++
                natToString content.length),
            ("Accept-Ranges", "bytes"),
            ("Content-Length", natToString (end_ - start + 1)),
            ("Content-Type", "video/webm")]
          row.filepath (some (some (start : Int), some (end_ : Int)))
      ∧ (getRecording sv id
            (some ("bytes=" ++ natToString start ++ "-" ++ natToString end_))).streamed sv =
          .ok ((content.drop start).take (end_ - start + 1))
      ∧ ((content.drop start).take (end_ - start + 1)).length = end_ - start + 1
      ∧ (∀ i, i < end_ - start + 1 →
          ((content.drop start).take (end_ - start + 1))[i]? = content[start + i]?)
      ∧ getRecording sv id (some ("bytes=" ++ natToString start ++ "-")) =
          .file 206
            [("Content-Range",
                "bytes " ++ natToString start ++ "-" ++ natToString (content.length - 1) ++ "/" ++
                  natToString content.length),
              ("Accept-Ranges", "bytes"),
              ("Content-Length", natToString (content.length - 1 - start + 1)),
              ("Content-Type", "video/webm")]
            row.filepath (some (some (start : Int), some ((content.length - 1 : Nat) : Int)))
      ∧ (getRecording sv id (some ("bytes=" ++ natToString start ++ "-"))).streamed sv =
          .ok (content.drop start)
      ∧ (content.drop start).length = content.length - 1 - start + 1 := by
  have hlast : ((content.length : Int) - 1) = ((content.length - 1 : Nat) : Int) := by omega
  have hopen := getRecording_open sv id row content start hrow hfile
  rw [hlast] at hopen
  refine ⟨?_, ?_, slice_length content start end_ hse (by omega), ?_, ?_, ?_, ?_⟩
  · rw [getRecording_closed sv id row content start end_ hrow hfile,
      partialContent_nat _ _ _ _ hse]
  · rw [getRecording_closed sv id row content start end_ hrow hfile,
      streamed_partialContent sv _ content start end_ hfile hse]
  · intro i hi
    exact slice_get content start _ i hi
  · rw [hopen, partialContent_nat _ _ _ _ (by omega)]
  · rw [hopen, streamed_partialContent sv _ content start _ hfile (by omega)]
    congr 1
    apply List.take_of_length_le
    rw [List.length_drop]
    omega
  · rw [List.length_drop]
    omega

theorem tenMiBContent_length : tenMiBContent.length = 10485760 := by
  unfold tenMiBContent
  exact List.length_replicate _ _

/-- C1 on the 10,485,760-byte file: `bytes=0-99` gives `bytes 0-99/10485760` with
length 100, and `bytes=500-` gives `bytes 500-10485759/10485760` with length
10485260. -/
theorem getRecording_valid_range_witness :
    getRecording tenMiB 1 (some "bytes=0-99") =
        .file 206
          [("Content-Range", "bytes 0-99/10485760"), ("Accept-Ranges", "bytes"),
            ("Content-Length", "100"), ("Content-Type", "video/webm")]
          "/srv/uploads/1700000000000_recording.webm" (some (some 0, some 99))
      ∧ getRecording tenMiB 1 (some "bytes=500-") =
        .file 206
          [("Content-Range", "bytes 500-10485759/10485760"), ("Accept-Ranges", "bytes"),
            ("Content-Length", "10485260"), ("Content-Type", "video/webm")]
          "/srv/uploads/1700000000000_recording.webm" (some (some 500, some 10485759)) := by
  have hrow : tenMiB.get 1 = .ok (some ⟨1, "1700000000000_recording.webm",
      "/srv/uploads/1700000000000_recording.webm", 10485760, "2023-11-14 22:13:20"⟩) := rfl
  have hfile : tenMiB.readFile "/srv/uploads/1700000000000_recording.webm" =
      some tenMiBContent := rfl
  have a := getRecording_valid_range tenMiB 1 _ tenMiBContent 0 99 hrow hfile
    (by rw [tenMiBContent_length]; decide) (by rw [tenMiBContent_length]; decide)
    (by decide) (by rw [tenMiBContent_length]; decide)
  have b := getRecording_valid_range tenMiB 1 _ tenMiBContent 500 10485759 hrow hfile
    (by rw [tenMiBContent_length]; decide) (by rw [tenMiBContent_length]; decide)
    (by decide) (by rw [tenMiBContent_length])
  have a1 := a.1
  have b1 := b.2.2.2.2.1
  rw [tenMiBContent_length] at a1 b1
  exact ⟨a1, b1⟩


/-- C2, as the code behaves: the out-of-bounds headers `bytes=0-500` and
`bytes=150-120` on a 100-byte file are answered like any range, with status 206, a
read window `{start, end}` and `Content-Length` 501, respectively -29. -/
theorem getRecording_invalid_range_counterexample :
    ¬ ((500 : Int) ≤ 100 - 1) ∧ ¬ ((150 : Int) ≤ 120)
      ∧ getRecording (oneFile 100) 1 (some "bytes=0-500") =
        .file 206
          [("Content-Range", "bytes 0-500/100"), ("Accept-Ranges", "bytes"),
            ("Content-Length", "501"), ("Content-Type", "video/webm")]
          "/srv/uploads/1_a.webm" (some (some 0, some 500))
      ∧ getRecording (oneFile 100) 1 (some "bytes=150-120") =
        .file 206
          [("Content-Range", "bytes 150-120/100"), ("Accept-Ranges", "bytes"),
            ("Content-Length", "-29"), ("Content-Type", "video/webm")]
          "/srv/uploads/1_a.webm" (some (some 150, some 120)) := by
  refine ⟨by decide, by decide, ?_, ?_⟩
  · rfl
  · rfl

/-- C2 as amended.  The handler does not validate the bounds and has no invalid-range
reply: for every existing recording and all decimal integers `start`, `end` (with
`start`, `end + 1` and the file size below `2 ^ 53`, in any relation to each other and
to the file size) the header `bytes=<start>-<end>` makes the handler call
`res.writeHead` with status 206, `Content-Range: bytes <start>-<end>/<fileSize>`,
`Accept-Ranges: bytes` and `Content-Length` the signed number `end - start + 1`, and
then `fs.createReadStream` with the window `{start, end}`; `bytes=<start>-` is handled
the same way with `end = fileSize - 1`. -/
theorem getRecording_unvalidated_range (sv : Server) (id : Nat) (row : RecordingRow)
    (content : List Byte) (start end_ : Nat)
    (hrow : sv.get id = .ok (some row)) (hfile : sv.readFile row.filepath = some content)
    (hsafe : start < 2 ^ 53 ∧ end_ + 1 < 2 ^ 53 ∧ content.length < 2 ^ 53) :
    getRecording sv id (some ("bytes=" ++ natToString start ++ "-" ++ natToString end_)) =
        .file 206
          [("Content-Range",
              "bytes " ++ natToString start ++ "-" ++ natToString end_ ++ "/" ++
                natToString content.length),
            ("Accept-Ranges", "bytes"),
            ("Content-Length", numberToString (some ((end_ : Int) - (start : Int) + 1))),
            ("Content-Type", "video/webm")]
          row.filepath (some (some (start : Int), some (end_ : Int)))
      ∧ getRecording sv id (some ("bytes=" ++ natToString start ++ "-")) =
        .file 206
          [("Content-Range",
              "bytes " ++ natToString start ++ "-" ++
                numberToString (some ((content.length : Int) - 1)) ++ "/" ++
                natToString content.length),
            ("Accept-Ranges", "bytes"),
            ("Content-Length",
              numberToString (some ((content.length : Int) - 1 - (start : Int) + 1))),
            ("Content-Type", "video/webm")]
          row.filepath (some (some (start : Int), some ((content.length : Int) - 1)))
      ∧ (-(2 : Int) ^ 53 < (end_ : Int) - (start : Int)
          ∧ (end_ : Int) - (start : Int) + 1 < (2 : Int) ^ 53)
      ∧ (-(2 : Int) ^ 53 ≤ (content.length : Int) - 1 - (start : Int)
          ∧ (content.length : Int) - 1 - (start : Int) + 1 < (2 : Int) ^ 53) := by
  refine ⟨?_, ?_, ⟨?_, ?_⟩, ⟨?_, ?_⟩⟩
  · rw [getRecording_closed sv id row content start end_ hrow hfile]
    simp only [partialContent, numberToString_nat]
  · rw [getRecording_open sv id row content start hrow hfile]
    simp only [partialContent, numberToString_nat]
  · have := hsafe.1
    norm_num at this ⊢
    omega
  · have := hsafe.2.1
    norm_num at this ⊢
    omega
  · have := hsafe.1
    norm_num at this ⊢
    omega
  · have := hsafe.2.2
    norm_num at this ⊢
    omega

/-- C2 as amended, on a 100-byte file with `bytes=150-120`: status 206,
`Content-Length: -29`, window `{150, 120}`. -/
theorem getRecording_unvalidated_range_witness :
    getRecording (oneFile 100) 1 (some ("bytes=" ++ natToString 150 ++ "-" ++ natToString 120)) =
      .file 206
        [("Content-Range",
            "bytes " ++ natToString 150 ++ "-" ++ natToString 120 ++ "/" ++
              natToString (List.replicate 100 (0 : Byte)).length),
          ("Accept-Ranges", "bytes"),
          ("Content-Length", numberToString (some (((120 : Nat) : Int) - ((150 : Nat) : Int) + 1))),
          ("Content-Type", "video/webm")]
        "/srv/uploads/1_a.webm" (some (some ((150 : Nat) : Int), some ((120 : Nat) : Int))) :=
  (getRecording_unvalidated_range (oneFile 100) 1
    ⟨1, "1_a.webm", "/srv/uploads/1_a.webm", 100, "1970-01-01 00:00:00"⟩
    (List.replicate 100 0) 150 120 rfl rfl
    ⟨by decide, by decide, by rw [List.length_replicate]; decide⟩).1

/-! ## Uploads and `GET /api/recordings/:id` without a range -/

theorem getRecording_full (sv : Server) (id : Nat) (row : RecordingRow) (content : List Byte)
    (hrow : sv.get id = .ok (some row)) (hfile : sv.readFile row.filepath = some content) :
    getRecording sv id none = fullContent row.filepath content.length := by
  simp only [getRecording, hrow, hfile, truthy, Bool.false_eq_true, if_false, fullContent,
    numberToString_nat]

theorem streamed_fullContent (sv : Server) (path : String) (content : List Byte) (n : Nat)
    (hfile : sv.readFile path = some content) :
    (fullContent path n).streamed sv = .ok content := by
  simp only [fullContent, Reply.streamed, hfile, createReadStream]

theorem id_le_foldr_max (rows : List RecordingRow) :
    ∀ r ∈ rows, r.id ≤ (rows.map (·.id)).foldr max 0 := by
  induction rows with
  | nil => intro r hr; cases hr
  | cons x xs ih =>
    intro r hr
    simp only [List.map_cons, List.foldr_cons]
    rcases List.mem_cons.mp hr with h | h
    · rw [h]; exact Nat.le_max_left _ _
    · exact Nat.le_trans (ih r h) (Nat.le_max_right _ _)

theorem postRecording_state (sv : Server) (arrival : Arrival) (f : UploadedFile)
    (hdb : sv.dbFault = none) :
    (postRecording sv arrival (some f)).1 =
      { sv with
        disk := (sv.uploadPath arrival.now f, f.bytes) :: sv.disk
        rows := sv.rows ++
          [⟨sv.nextId, uploadFilename arrival.now f, sv.uploadPath arrival.now f, f.bytes.length,
            arrival.timestamp⟩]
        seq := sv.nextId } := by
  simp only [postRecording, hdb]
  rfl

theorem postRecording_get_new (sv : Server) (arrival : Arrival) (f : UploadedFile)
    (hdb : sv.dbFault = none) :
    (postRecording sv arrival (some f)).1.get sv.nextId =
      .ok (some ⟨sv.nextId, uploadFilename arrival.now f, sv.uploadPath arrival.now f, f.bytes.length,
        arrival.timestamp⟩) := by
  rw [postRecording_state sv arrival f hdb]
  have hnone : sv.rows.find? (fun r => decide (r.id = sv.nextId)) = none := by
    rw [List.find?_eq_none]
    intro r hr
    have := id_le_foldr_max sv.rows r hr
    simp only [Server.nextId, decide_eq_true_eq]
    omega
  simp only [Server.get, hdb, List.find?_append, hnone, Option.none_or, List.find?_cons,
    decide_True]

theorem postRecording_read_new (sv : Server) (arrival : Arrival) (f : UploadedFile)
    (hdb : sv.dbFault = none) :
    (postRecording sv arrival (some f)).1.readFile (sv.uploadPath arrival.now f) = some f.bytes := by
  rw [postRecording_state sv arrival f hdb]
  simp [Server.readFile, List.lookup]

theorem postRecording_keeps (sv : Server) (arrival : Arrival) (f : UploadedFile) :
    (postRecording sv arrival (some f)).1.uploadDir = sv.uploadDir
      ∧ (postRecording sv arrival (some f)).1.dbFault = sv.dbFault := by
  cases hdb : sv.dbFault with
  | none => rw [postRecording_state sv arrival f hdb]; exact ⟨rfl, hdb⟩
  | some msg => simp only [postRecording, hdb]; exact ⟨trivial, trivial⟩

theorem postRecording_stable (sv : Server) (arrival : Arrival) (f : UploadedFile) (id : Nat)
    (row : RecordingRow) (content : List Byte)
    (hrow : sv.get id = .ok (some row)) (hfile : sv.readFile row.filepath = some content)
    (hpath : sv.uploadPath arrival.now f ≠ row.filepath) :
    (postRecording sv arrival (some f)).1.get id = .ok (some row)
      ∧ (postRecording sv arrival (some f)).1.readFile row.filepath = some content := by
  have hdb : sv.dbFault = none := by
    cases h : sv.dbFault with
    | none => rfl
    | some msg => simp [Server.get, h] at hrow
  rw [postRecording_state sv arrival f hdb]
  have hfind : sv.rows.find? (fun r => decide (r.id = id)) = some row := by
    simpa [Server.get, hdb] using hrow
  refine ⟨?_, ?_⟩
  · simp only [Server.get, hdb, List.find?_append, hfind]
    rfl
  · have hne : (row.filepath == sv.uploadPath arrival.now f) = false := by
      simp only [beq_eq_false_iff_ne, ne_eq]
      exact fun h => hpath h.symm
    simp only [Server.readFile, List.lookup, hne]
    exact hfile

theorem uploads_stable (later : List (Arrival × UploadedFile)) :
    ∀ (sv : Server) (id : Nat) (row : RecordingRow) (content : List Byte),
      sv.get id = .ok (some row) → sv.readFile row.filepath = some content →
      (∀ u ∈ later, sv.uploadPath u.1.now u.2 ≠ row.filepath) →
      (uploads sv later).get id = .ok (some row)
        ∧ (uploads sv later).readFile row.filepath = some content := by
  induction later with
  | nil => intro sv id row content hrow hfile _; exact ⟨hrow, hfile⟩
  | cons u us ih =>
    intro sv id row content hrow hfile hpaths
    have h1 := postRecording_stable sv u.1 u.2 id row content hrow hfile
      (hpaths u (List.mem_cons_self u us))
    have hdir := (postRecording_keeps sv u.1 u.2).1
    refine ih (postRecording sv u.1 (some u.2)).1 id row content h1.1 h1.2 ?_
    intro v hv
    have := hpaths v (List.mem_cons_of_mem u hv)
    simpa only [Server.uploadPath, hdir] using this

/-- C3, as the code behaves.  Two uploads named `a.webm` arrive in the same
millisecond, 100 bytes and then 50 bytes; multer stores both under the same path.  The
first recording still exists with stored `filesize` 100, and without a Range header it
is served with `Content-Length: 50`. -/
theorem getRecording_no_range_counterexample :
    overwritten.get 1 =
        .ok (some ⟨1, "5_a.webm", "/srv/uploads/5_a.webm", 100, "1970-01-01 00:00:00"⟩)
      ∧ getRecording overwritten 1 none =
        .file 200 [("Content-Length", "50"), ("Content-Type", "video/webm")]
          "/srv/uploads/5_a.webm" none :=
  ⟨rfl, rfl⟩

/-- C3 as amended.  For an existing recording and a request without a Range header the
reply has status 200, exactly the headers `Content-Length: <size of the file now on
disk at the record's path>` and `Content-Type: video/webm` (no `Content-Range`), and
the stream is opened without a window and carries that whole file.  The size is read
from the disk, not from the record: it is the `filesize` stored at upload as long as
no later upload has been stored under the same path, so a recording uploaded with no
database fault, followed by any uploads stored under other paths, is served with
`Content-Length` equal to its stored `filesize`, the number of bytes uploaded, and with
exactly the uploaded bytes. -/
theorem getRecording_no_range (sv : Server) (id : Nat) (row : RecordingRow)
    (content : List Byte)
    (hrow : sv.get id = .ok (some row)) (hfile : sv.readFile row.filepath = some content) :
    getRecording sv id none =
        .file 200
          [("Content-Length", natToString content.length), ("Content-Type", "video/webm")]
          row.filepath none
      ∧ (getRecording sv id none).streamed sv = .ok content
      ∧ ∀ (sv0 : Server) (arrival : Arrival) (f : UploadedFile)
          (later : List (Arrival × UploadedFile)),
          sv0.dbFault = none →
          (∀ u ∈ later, sv0.uploadPath u.1.now u.2 ≠ sv0.uploadPath arrival.now f) →
          ∃ stored : RecordingRow,
            (uploads (postRecording sv0 arrival (some f)).1 later).get sv0.nextId =
                .ok (some stored)
              ∧ stored.filesize = f.bytes.length
              ∧ getRecording (uploads (postRecording sv0 arrival (some f)).1 later) sv0.nextId
                  none =
                .file 200
                  [("Content-Length", natToString stored.filesize),
                    ("Content-Type", "video/webm")]
                  stored.filepath none
              ∧ (getRecording (uploads (postRecording sv0 arrival (some f)).1 later) sv0.nextId
                    none).streamed (uploads (postRecording sv0 arrival (some f)).1 later) =
                  .ok f.bytes := by
  refine ⟨?_, ?_, ?_⟩
  · rw [getRecording_full sv id row content hrow hfile]; rfl
  · rw [getRecording_full sv id row content hrow hfile]
    exact streamed_fullContent sv _ content _ hfile
  · intro sv0 arrival f later hdb hpaths
    have hdir := (postRecording_keeps sv0 arrival f).1
    have hst := uploads_stable later (postRecording sv0 arrival (some f)).1 sv0.nextId _ f.bytes
      (postRecording_get_new sv0 arrival f hdb) (postRecording_read_new sv0 arrival f hdb)
      (by
        intro u hu
        have := hpaths u hu
        simpa only [Server.uploadPath, hdir] using this)
    refine ⟨_, hst.1, rfl, ?_, ?_⟩
    · rw [getRecording_full _ _ _ _ hst.1 hst.2]; rfl
    · rw [getRecording_full _ _ _ _ hst.1 hst.2]
      exact streamed_fullContent _ _ f.bytes _ hst.2

/-- C3 as amended, on the 10,485,760-byte upload: status 200 with `Content-Length:
10485760`. -/
theorem getRecording_no_range_witness :
    getRecording tenMiB 1 none =
      .file 200 [("Content-Length", "10485760"), ("Content-Type", "video/webm")]
        "/srv/uploads/1700000000000_recording.webm" none := by
  have h := (getRecording_no_range tenMiB 1
    ⟨1, "1700000000000_recording.webm", "/srv/uploads/1700000000000_recording.webm", 10485760,
      "2023-11-14 22:13:20"⟩ tenMiBContent rfl rfl).1
  rw [tenMiBContent_length] at h
  exact h

/-! ## The capture session -/

theorem run_append (a : App) (xs ys : List Event) : run a (xs ++ ys) = run (run a xs) ys := by
  simp [run, List.foldl_append]

theorem run_cons (a : App) (e : Event) (es : List Event) : run a (e :: es) = run (step a e) es :=
  rfl

theorem run_nil (a : App) : run a [] = a := rfl

theorem set_last (l : List MediaRecorder) (x y : MediaRecorder) :
    (l ++ [x]).set l.length y = l ++ [y] := by
  rw [List.set_append_right _ _ (Nat.le_refl _)]
  simp

/-- A successful `startRecording`, field by field. -/
theorem startRecording_ok (a : App) (display mic : MediaStream) :
    startRecording a (StartEnv.ok display mic) =
      { a with
        error := ""
        recorders := a.recorders ++ [⟨mixed display mic, true, false, []⟩]
        streamsRef := [display, mic, mixed display mic]
        mediaRecorder := some a.recorders.length
        isRecording := true
        seconds := 0
        intervals := a.intervals ++ [⟨a.nextTimer, a.mediaRecorder⟩]
        timerRef := some a.nextTimer
        nextTimer := a.nextTimer + 1 } := by
  simp only [startRecording, StartEnv.ok, set_last]

theorem getElem?_last (l : List MediaRecorder) (x : MediaRecorder) :
    (l ++ [x])[l.length]? = some x := List.getElem?_concat_length l x

/-- The `stopRecording` of a render bound to a recording recorder, field by field. -/
theorem stopRecording_active (a : App) (r : Nat) (mr : MediaRecorder)
    (h : a.recorders[r]? = some mr) (hrec : mr.recording = true) :
    stopRecording (some r) a =
      { a with
        recorders := a.recorders.set r { mr with recording := false, stopQueued := true }
        isRecording := false
        intervals := (clearInterval a.timerRef a).intervals
        stopCalls := a.stopCalls ++ tracksOf a.streamsRef
        streamsRef := [] } := by
  simp only [stopRecording, recorderStop, h, hrec, if_true]
  cases a.timerRef <;> rfl

theorem set_same (l : List MediaRecorder) (r : Nat) (x : MediaRecorder) (h : l[r]? = some x) :
    l.set r x = l := by
  apply List.ext_getElem?
  intro i
  rw [List.getElem?_set]
  by_cases hi : r = i
  · subst hi
    have hlt : r < l.length := by
      by_contra hge
      rw [List.getElem?_eq_none (Nat.le_of_not_lt hge)] at h
      cases h
    simp [hlt, h]
  · simp [hi]

theorem getElem?_lt (l : List MediaRecorder) (r : Nat) (x : MediaRecorder) (h : l[r]? = some x) :
    r < l.length := by
  by_contra hge
  rw [List.getElem?_eq_none (Nat.le_of_not_lt hge)] at h
  cases h

/-- One `dataavailable` event of an existing recorder, field by field. -/
theorem ondataavailable_eq (r : Nat) (d : Blob) (a : App) (mr : MediaRecorder)
    (h : a.recorders[r]? = some mr) :
    ondataavailable r d a =
      { a with
        recorders := a.recorders.set r
          { mr with chunks := mr.chunks ++ [d].filter (fun c => c.size > 0) } } := by
  by_cases hd : d.size > 0
  · simp only [ondataavailable, h, hd, if_true, List.filter, decide_True]
  · simp only [ondataavailable, h, hd, if_false, List.filter, decide_False, List.append_nil]
    rw [set_same _ _ _ h]

/-- A run of `dataavailable` events of an existing recorder, field by field. -/
theorem run_dataavailable (r : Nat) (ds : List Blob) :
    ∀ (a : App) (mr : MediaRecorder), a.recorders[r]? = some mr →
      run a (ds.map (Event.dataavailable r)) =
        { a with
          recorders := a.recorders.set r
            { mr with chunks := mr.chunks ++ ds.filter (fun c => c.size > 0) } } := by
  induction ds with
  | nil =>
    intro a mr h
    simp only [List.map_nil, run_nil, List.filter_nil, List.append_nil]
    rw [set_same _ _ _ h]
  | cons d ds ih =>
    intro a mr h
    have hlt := getElem?_lt _ _ _ h
    simp only [List.map_cons, run_cons, step]
    rw [ondataavailable_eq r d a mr h]
    rw [ih _ { mr with chunks := mr.chunks ++ [d].filter (fun c => c.size > 0) }
      (by simp [List.getElem?_set_self hlt])]
    simp only [List.set_set, List.append_assoc]
    congr
    rw [← List.filter_append]
    rfl

theorem flatMap_bytes_length (cs : List Blob) :
    (cs.flatMap (fun p => p.bytes)).length = (cs.map Blob.size).sum := by
  induction cs with
  | nil => rfl
  | cons c cs ih =>
    simp only [List.flatMap_cons, List.length_append, List.map_cons, List.sum_cons, ih, Blob.size]

theorem sum_size_filter (cs : List Blob) :
    ((cs.filter (fun c => c.size > 0)).map Blob.size).sum = (cs.map Blob.size).sum := by
  induction cs with
  | nil => rfl
  | cons c cs ih =>
    by_cases hc : c.size > 0
    · simp [List.filter, hc, ih]
    · have h0 : c.size = 0 := by omega
      simp [List.filter, hc, ih, h0]

/-- C8. Start a session, let the recorder deliver any chunks `before` the click on
"Stop" and any chunks `after` it (the final flush), then dispatch its `stop` event.
The chunk sequence is empty right after the start; when `onstop` fires it is exactly
the delivered chunks of positive size in arrival order; the blob built by `onstop` is
their concatenation in that order with type `video/webm`; and its size is the sum of
the sizes of the chunk sequence, which is the sum of the sizes of all delivered
chunks. -/
theorem chunks_in_order (a0 : App) (display mic : MediaStream) (before after : List Blob)
    (hidle : a0.isRecording = false) :
    (run a0 [.clickStart (StartEnv.ok display mic)]).chunks a0.recorders.length = []
      ∧ (run a0 ([.clickStart (StartEnv.ok display mic)]
            ++ before.map (Event.dataavailable a0.recorders.length) ++ [.clickStop]
            ++ after.map (Event.dataavailable a0.recorders.length))).chunks a0.recorders.length =
          (before ++ after).filter (fun c => c.size > 0)
      ∧ (run a0 ([.clickStart (StartEnv.ok display mic)]
            ++ before.map (Event.dataavailable a0.recorders.length) ++ [.clickStop]
            ++ after.map (Event.dataavailable a0.recorders.length)
            ++ [.stop a0.recorders.length])).blobObj =
          some ⟨((before ++ after).filter (fun c => c.size > 0)).flatMap (fun p => p.bytes),
            "video/webm"⟩
      ∧ (Blob.ofParts ((before ++ after).filter (fun c => c.size > 0)) "video/webm").size =
          (((before ++ after).filter (fun c => c.size > 0)).map Blob.size).sum
      ∧ (Blob.ofParts ((before ++ after).filter (fun c => c.size > 0)) "video/webm").size =
          ((before ++ after).map Blob.size).sum := by
  have hstart : run a0 [.clickStart (StartEnv.ok display mic)] =
      startRecording a0 (StartEnv.ok display mic) := by
    simp only [run_cons, run_nil, step, hidle, Bool.false_eq_true, if_false]
  have hnew := getElem?_last a0.recorders ⟨mixed display mic, true, false, []⟩
  -- the state when "Stop" is clicked
  have h1 : run a0 ([.clickStart (StartEnv.ok display mic)]
        ++ before.map (Event.dataavailable a0.recorders.length)) =
      { startRecording a0 (StartEnv.ok display mic) with
        recorders := a0.recorders ++
          [⟨mixed display mic, true, false, before.filter (fun c => c.size > 0)⟩] } := by
    rw [run_append, hstart, startRecording_ok,
      run_dataavailable _ before _ ⟨mixed display mic, true, false, []⟩ hnew]
    simp only [set_last, List.nil_append]
  -- the state when the `stop` event is dispatched
  have hmid : (run a0 ([.clickStart (StartEnv.ok display mic)]
        ++ before.map (Event.dataavailable a0.recorders.length) ++ [.clickStop]
        ++ after.map (Event.dataavailable a0.recorders.length))).recorders =
      a0.recorders ++
        [⟨mixed display mic, false, true, (before ++ after).filter (fun c => c.size > 0)⟩] := by
    rw [run_append, run_append, h1, startRecording_ok]
    simp only [run_cons, run_nil, step, if_true]
    rw [stopRecording_active _ _ ⟨mixed display mic, true, false,
      before.filter (fun c => c.size > 0)⟩ (getElem?_last _ _) rfl]
    simp only [set_last]
    rw [run_dataavailable _ after _ ⟨mixed display mic, false, true,
      before.filter (fun c => c.size > 0)⟩ (getElem?_last _ _)]
    simp only [set_last, List.filter_append]
  refine ⟨?_, ?_, ?_, ?_, ?_⟩
  · rw [hstart, startRecording_ok]
    simp only [App.chunks, hnew]
  · simp only [App.chunks, hmid, List.getElem?_concat_length]
  · rw [run_append]
    simp only [run_cons, run_nil, step, hmid, List.getElem?_concat_length, if_true, onstop,
      set_last, Blob.ofParts]
  · exact flatMap_bytes_length _
  · rw [← sum_size_filter (before ++ after)]
    exact flatMap_bytes_length _

/-- C8 on three delivered chunks, one of them empty, and a final flush. -/
theorem chunks_in_order_witness :
    (run (App.init true) ([.clickStart (StartEnv.ok displayStream micStream)]
        ++ [⟨[1, 2], "video/webm"⟩, ⟨[], "video/webm"⟩, ⟨[3], "video/webm"⟩].map
            (Event.dataavailable (App.init true).recorders.length)
        ++ [.clickStop]
        ++ [⟨[4, 5], "video/webm"⟩].map (Event.dataavailable (App.init true).recorders.length)
        ++ [.stop (App.init true).recorders.length])).blobObj =
      some ⟨[1, 2, 3, 4, 5], "video/webm"⟩ :=
  (chunks_in_order (App.init true) displayStream micStream
    [⟨[1, 2], "video/webm"⟩, ⟨[], "video/webm"⟩, ⟨[3], "video/webm"⟩] [⟨[4, 5], "video/webm"⟩]
    rfl).2.2.1

theorem live_of_stopped (a : App) (t : TrackId) (h : t ∈ a.stopCalls) : a.live t = false := by
  simp [App.live, h]

theorem mem_tracksOf (streams : List MediaStream) (s : MediaStream) (t : Track)
    (hs : s ∈ streams) (ht : t ∈ s.tracks) : t.id ∈ tracksOf streams := by
  simp only [tracksOf, List.mem_flatMap, List.mem_map]
  exact ⟨s, hs, t, ht, rfl⟩

/-- The state after a session ended by the user, field by field. -/
theorem stoppedByUser_eq (a0 : App) (display mic : MediaStream) (chunks : List Blob)
    (hidle : a0.isRecording = false) :
    stoppedByUser a0 display mic chunks =
      { a0 with
        error := ""
        recorders := a0.recorders ++
          [⟨mixed display mic, false, true, chunks.filter (fun c => c.size > 0)⟩]
        streamsRef := []
        mediaRecorder := some a0.recorders.length
        isRecording := false
        seconds := 0
        intervals := (a0.intervals ++ [(⟨a0.nextTimer, a0.mediaRecorder⟩ : Interval)]).filter
          (fun iv => iv.id ≠ a0.nextTimer)
        timerRef := some a0.nextTimer
        nextTimer := a0.nextTimer + 1
        stopCalls := a0.stopCalls ++ tracksOf [display, mic, mixed display mic] } := by
  have hstart : run a0 [.clickStart (StartEnv.ok display mic)] =
      startRecording a0 (StartEnv.ok display mic) := by
    simp only [run_cons, run_nil, step, hidle, Bool.false_eq_true, if_false]
  unfold stoppedByUser
  rw [run_append, run_append, hstart, startRecording_ok,
    run_dataavailable _ chunks _ ⟨mixed display mic, true, false, []⟩ (getElem?_last _ _)]
  simp only [run_cons, run_nil, step, if_true, set_last, List.nil_append]
  rw [stopRecording_active _ _ ⟨mixed display mic, true, false,
    chunks.filter (fun c => c.size > 0)⟩ (getElem?_last _ _) rfl]
  simp only [set_last, clearInterval]

/-- The run in which the click on "Stop" finds the session's recorder recording: for
any `display` and `mic` streams (any tracks, an incidental display audio track
included) every track of the display source, of the microphone source and of the
composite stream has then been stopped, so none is live, and `streamsRef` is empty; the
recorder is inactive, `isRecording` is false and the session's timer is cleared. -/
theorem stopRecording_releases (a0 : App) (display mic : MediaStream) (chunks : List Blob)
    (hidle : a0.isRecording = false) :
    (∀ t ∈ display.tracks, t.id ∈ (stoppedByUser a0 display mic chunks).stopCalls
        ∧ (stoppedByUser a0 display mic chunks).live t.id = false)
      ∧ (∀ t ∈ mic.tracks, t.id ∈ (stoppedByUser a0 display mic chunks).stopCalls
        ∧ (stoppedByUser a0 display mic chunks).live t.id = false)
      ∧ (∀ t ∈ (mixed display mic).tracks,
          t.id ∈ (stoppedByUser a0 display mic chunks).stopCalls
            ∧ (stoppedByUser a0 display mic chunks).live t.id = false)
      ∧ (stoppedByUser a0 display mic chunks).streamsRef = []
      ∧ (stoppedByUser a0 display mic chunks).isActive a0.recorders.length = false
      ∧ (stoppedByUser a0 display mic chunks).isRecording = false
      ∧ ∀ iv ∈ (stoppedByUser a0 display mic chunks).intervals, iv.id ≠ a0.nextTimer := by
  have key : ∀ s ∈ [display, mic, mixed display mic], ∀ t ∈ s.tracks,
      t.id ∈ (stoppedByUser a0 display mic chunks).stopCalls
        ∧ (stoppedByUser a0 display mic chunks).live t.id = false := by
    intro s hs t ht
    have hmem : t.id ∈ (stoppedByUser a0 display mic chunks).stopCalls := by
      rw [stoppedByUser_eq a0 display mic chunks hidle]
      exact List.mem_append_right _ (mem_tracksOf _ s t hs ht)
    exact ⟨hmem, live_of_stopped _ _ hmem⟩
  refine ⟨key display (by simp), key mic (by simp), key (mixed display mic) (by simp), ?_, ?_, ?_,
    ?_⟩
  · rw [stoppedByUser_eq a0 display mic chunks hidle]
  · rw [stoppedByUser_eq a0 display mic chunks hidle]
    simp only [App.isActive, List.getElem?_concat_length]
  · rw [stoppedByUser_eq a0 display mic chunks hidle]
  · rw [stoppedByUser_eq a0 display mic chunks hidle]
    intro iv hiv
    simpa using (List.mem_filter.mp hiv).2

/-- That run on a display capture with a video and an audio track and a one-track
microphone: after the user's stop the incidental display audio track 1, which is not
in the composite stream, is no longer live, and `streamsRef` is empty. -/
theorem stopRecording_releases_witness :
    (stoppedByUser (App.init true) displayStream micStream []).live 1 = false
      ∧ (stoppedByUser (App.init true) displayStream micStream []).streamsRef = [] :=
  ⟨((stopRecording_releases (App.init true) displayStream micStream [] rfl).1
      ⟨1, .audio⟩ (by decide)).2,
    (stopRecording_releases (App.init true) displayStream micStream [] rfl).2.2.2.1⟩

theorem clearInterval_cleared (a : App)
    (htimer : ∀ t, a.timerRef = some t → ∀ iv ∈ a.intervals, iv.id ≠ t) :
    (clearInterval a.timerRef a).intervals = a.intervals := by
  cases ht : a.timerRef with
  | none => rfl
  | some t =>
    simp only [clearInterval]
    rw [List.filter_eq_self]
    intro iv hiv
    simpa using htimer t ht iv hiv

theorem isActive_set_stopped (l : List MediaRecorder) (r : Nat) (mr : MediaRecorder)
    (h : l[r]? = some mr) :
    (l.set r { mr with recording := false, stopQueued := true })[r]? =
      some { mr with recording := false, stopQueued := true } := by
  simp [List.getElem?_set_self (getElem?_lt l r mr h)]

/-- C9. In a state as one completed `stopRecording` leaves it (the bound recorder
inactive, `isRecording` false, the timer cleared, `streamsRef` empty; the session may
be Stopping or Ready), a further `stopRecording` changes no component of the state
other than the console log: `isRecording`, `seconds`, the recorders with their chunk
sequences and queued events, the blob, the timers, the log of `track.stop()` calls and
`streamsRef` are as before, and at most one `console.error` is written, the exception
being caught.  `stopRecording` with no recorder changes nothing at all.  And a
`stopRecording` bound to a recording recorder does leave such a state. -/
theorem stopRecording_idempotent (a : App) (bound : Option Nat)
    (hinactive : ∀ r, bound = some r → a.isActive r = false)
    (hnot : a.isRecording = false)
    (htimer : ∀ t, a.timerRef = some t → ∀ iv ∈ a.intervals, iv.id ≠ t)
    (hstreams : a.streamsRef = []) :
    { stopRecording bound a with consoleErrors := a.consoleErrors } = a
      ∧ (stopRecording bound a).consoleErrors ≤ a.consoleErrors + 1
      ∧ (∀ a' : App, stopRecording none a' = a')
      ∧ ∀ (a0 : App) (r : Nat), a0.isActive r = true →
          (stopRecording (some r) a0).isActive r = false
            ∧ (stopRecording (some r) a0).isRecording = false
            ∧ (∀ t, (stopRecording (some r) a0).timerRef = some t →
                ∀ iv ∈ (stopRecording (some r) a0).intervals, iv.id ≠ t)
            ∧ (stopRecording (some r) a0).streamsRef = [] := by
  have hmain : { stopRecording bound a with consoleErrors := a.consoleErrors } = a
      ∧ (stopRecording bound a).consoleErrors ≤ a.consoleErrors + 1 := by
    have hci := clearInterval_cleared a htimer
    cases a with
    | mk isRecording seconds blobUrl blobObj mediaRecorder error timerRef streamsRef
        recorders intervals stopCalls endedBySource consoleErrors nextTimer nextUrl
        stopThrows =>
      simp only at hnot hstreams hci hinactive
      subst hnot hstreams
      cases bound with
      | none => exact ⟨rfl, Nat.le_succ _⟩
      | some r =>
        have hr := hinactive r rfl
        cases hget : recorders[r]? with
        | none => simp [stopRecording, recorderStop, hget]
        | some mr =>
          have hrec : mr.recording = false := by
            simpa [App.isActive, hget] using hr
          cases stopThrows with
          | true => simp [stopRecording, recorderStop, hget, hrec]
          | false =>
            simp only [stopRecording, recorderStop, hget, hrec, Bool.false_eq_true, if_false]
            cases timerRef with
            | none => simp [clearInterval, tracksOf]
            | some t =>
              simp only [clearInterval, tracksOf]
              simp only [clearInterval] at hci
              simp only [hci, List.flatMap_nil, List.append_nil, true_and]
              exact Nat.le_succ _
  refine ⟨hmain.1, hmain.2, fun _ => rfl, ?_⟩
  intro a0 r hact
  cases hget : a0.recorders[r]? with
  | none => simp [App.isActive, hget] at hact
  | some mr =>
    have hrec : mr.recording = true := by simpa [App.isActive, hget] using hact
    rw [stopRecording_active a0 r mr hget hrec]
    refine ⟨?_, rfl, ?_, rfl⟩
    · simp only [App.isActive, isActive_set_stopped _ _ _ hget]
    · intro t ht iv hiv
      simp only at ht hiv
      simp only [clearInterval, ht] at hiv
      simpa using (List.mem_filter.mp hiv).2

/-- C9 on the session of the witness streams once the user has stopped it: a second
`stopRecording` bound to the same recorder leaves the state as it is. -/
theorem stopRecording_idempotent_witness :
    { stopRecording (some 0) (stoppedByUser (App.init true) displayStream micStream []) with
        consoleErrors :=
          (stoppedByUser (App.init true) displayStream micStream []).consoleErrors } =
      stoppedByUser (App.init true) displayStream micStream [] :=
  (stopRecording_idempotent (stoppedByUser (App.init true) displayStream micStream []) (some 0)
    (by decide) (by decide) (by decide) (by decide)).1


/-! ## Where the session differs from its specification -/

theorem find?_fresh (l : List Interval) (t : Nat) (bound : Option Nat)
    (hfresh : ∀ iv ∈ l, iv.id ≠ t) :
    (l ++ [(⟨t, bound⟩ : Interval)]).find? (fun iv => iv.id = t) = some ⟨t, bound⟩ := by
  have hnone : l.find? (fun iv => decide (iv.id = t)) = none := by
    rw [List.find?_eq_none]
    intro iv hiv
    simpa using hfresh iv hiv
  simp [List.find?_append, hnone]

/-- A tick of a timer whose `stopRecording` is bound to `null` only advances the
counter. -/
theorem tick_unbound (a : App) (t : Nat)
    (h : a.intervals.find? (fun iv => iv.id = t) = some ⟨t, none⟩) :
    tick t a = { a with seconds := a.seconds + 1 } := by
  simp only [tick, h, stopRecording, ite_self]

theorem ticks_unbound (t n : Nat) :
    ∀ a : App, a.intervals.find? (fun iv => iv.id = t) = some ⟨t, none⟩ →
      run a (List.replicate n (.tick t)) = { a with seconds := a.seconds + n } := by
  induction n with
  | zero => intro a _; rfl
  | succ n ih =>
    intro a h
    rw [List.replicate_succ, run_cons]
    simp only [step]
    rw [tick_unbound a t h, ih { a with seconds := a.seconds + 1 } h]
    simp only [Nat.add_assoc, Nat.add_comm 1 n]

/-- C4, as the code behaves.  In a session started while the state variable
`mediaRecorder` is still `null` (the first session after mounting), the
`stopRecording` that the timer callback calls returns at once, so no tick stops the
session: after `n` ticks, for every `n` (180 and more included), the state is the one
`startRecording` left with the counter at `n`; the recorder records, `isRecording` is
true and the timer runs. -/
theorem autoStop_never_fires (a0 : App) (display mic : MediaStream) (n : Nat)
    (hidle : a0.isRecording = false) (hnull : a0.mediaRecorder = none)
    (hfresh : ∀ iv ∈ a0.intervals, iv.id ≠ a0.nextTimer) :
    run a0 ([.clickStart (StartEnv.ok display mic)] ++ List.replicate n (.tick a0.nextTimer)) =
        { startRecording a0 (StartEnv.ok display mic) with seconds := n }
      ∧ (run a0 ([.clickStart (StartEnv.ok display mic)]
          ++ List.replicate n (.tick a0.nextTimer))).isRecording = true
      ∧ (run a0 ([.clickStart (StartEnv.ok display mic)]
          ++ List.replicate n (.tick a0.nextTimer))).isActive a0.recorders.length = true
      ∧ (run a0 ([.clickStart (StartEnv.ok display mic)]
          ++ List.replicate n (.tick a0.nextTimer))).stopCalls = a0.stopCalls
      ∧ ∃ iv ∈ (run a0 ([.clickStart (StartEnv.ok display mic)]
          ++ List.replicate n (.tick a0.nextTimer))).intervals, iv.id = a0.nextTimer := by
  have hstart : run a0 [.clickStart (StartEnv.ok display mic)] =
      startRecording a0 (StartEnv.ok display mic) := by
    simp only [run_cons, run_nil, step, hidle, Bool.false_eq_true, if_false]
  have hrun : run a0 ([.clickStart (StartEnv.ok display mic)]
      ++ List.replicate n (.tick a0.nextTimer)) =
        { startRecording a0 (StartEnv.ok display mic) with seconds := n } := by
    rw [run_append, hstart, ticks_unbound a0.nextTimer n _
      (by rw [startRecording_ok, hnull]; exact find?_fresh _ _ _ hfresh)]
    rw [startRecording_ok]
    simp
  refine ⟨hrun, ?_, ?_, ?_, ?_⟩
  · rw [hrun, startRecording_ok]
  · rw [hrun, startRecording_ok]
    simp only [App.isActive, List.getElem?_concat_length]
  · rw [hrun, startRecording_ok]
  · rw [hrun, startRecording_ok]
    exact ⟨⟨a0.nextTimer, a0.mediaRecorder⟩, by simp, rfl⟩

/-- C4 on the first session after mounting: the tick that takes the counter to 180
leaves the session recording, and the counter then reaches 181. -/
theorem autoStop_never_fires_witness :
    (run (App.init true) ([.clickStart (StartEnv.ok displayStream micStream)]
        ++ List.replicate 180 (.tick (App.init true).nextTimer))).isRecording = true
      ∧ run (App.init true) ([.clickStart (StartEnv.ok displayStream micStream)]
          ++ List.replicate 181 (.tick (App.init true).nextTimer)) =
        { startRecording (App.init true) (StartEnv.ok displayStream micStream) with
          seconds := 181 } :=
  ⟨(autoStop_never_fires (App.init true) displayStream micStream 180 rfl rfl
      (by decide)).2.1,
    (autoStop_never_fires (App.init true) displayStream micStream 181 rfl rfl
      (by decide)).1⟩

/-- C6, as the code behaves.  When the display capture succeeds and the microphone
capture is rejected, `startRecording` returns with the error message set, `isRecording`
false and no timer, but the two display tracks are still live and are not even
retained in `streamsRef`; when both captures succeed and `new MediaRecorder` throws,
all three tracks are still live. -/
theorem startRecording_failure_leaks :
    (startRecording (App.init true)
        { granted with mic := .error "Permission denied" }).error = "Permission denied"
      ∧ (startRecording (App.init true)
        { granted with mic := .error "Permission denied" }).isRecording = false
      ∧ (startRecording (App.init true)
        { granted with mic := .error "Permission denied" }).intervals = []
      ∧ (startRecording (App.init true)
        { granted with mic := .error "Permission denied" }).live 0 = true
      ∧ (startRecording (App.init true)
        { granted with mic := .error "Permission denied" }).live 1 = true
      ∧ (startRecording (App.init true)
        { granted with mic := .error "Permission denied" }).streamsRef = []
      ∧ (startRecording (App.init true)
        { granted with construct := .error "NotSupportedError" }).error = "NotSupportedError"
      ∧ (startRecording (App.init true)
        { granted with construct := .error "NotSupportedError" }).live 0 = true
      ∧ (startRecording (App.init true)
        { granted with construct := .error "NotSupportedError" }).live 2 = true := by
  decide

set_option maxRecDepth 100000 in
/-- C7, as the code behaves.  A session whose display video track ends on its own at
second 42 is not stopped: `isRecording` is still true, the recorder still records, no
blob exists, the timer still runs (three more ticks take the counter to 45) and the
display audio track and the microphone track are still live; an explicit stop at the
same moment leaves a different state. -/
theorem trackEnded_counterexample :
    (run (App.init true)
        ([.clickStart granted] ++ List.replicate 42 (.tick 0) ++ [.trackEnded 0])).isRecording
        = true
      ∧ (run (App.init true)
        ([.clickStart granted] ++ List.replicate 42 (.tick 0) ++ [.trackEnded 0])).isActive 0
        = true
      ∧ (run (App.init true)
        ([.clickStart granted] ++ List.replicate 42 (.tick 0) ++ [.trackEnded 0])).blobObj
        = none
      ∧ (run (App.init true)
        ([.clickStart granted] ++ List.replicate 42 (.tick 0) ++ [.trackEnded 0])).intervals
        = [⟨0, none⟩]
      ∧ (run (App.init true)
        ([.clickStart granted] ++ List.replicate 42 (.tick 0) ++ [.trackEnded 0])).live 1 = true
      ∧ (run (App.init true)
        ([.clickStart granted] ++ List.replicate 42 (.tick 0) ++ [.trackEnded 0])).live 2 = true
      ∧ (run (App.init true)
        ([.clickStart granted] ++ List.replicate 42 (.tick 0) ++ [.trackEnded 0]
          ++ List.replicate 3 (.tick 0))).seconds = 45
      ∧ run (App.init true)
          ([.clickStart granted] ++ List.replicate 42 (.tick 0) ++ [.trackEnded 0]) ≠
        run (App.init true) ([.clickStart granted] ++ List.replicate 42 (.tick 0) ++ [.clickStop])
      ∧ (run (App.init true)
        ([.clickStart granted] ++ List.replicate 42 (.tick 0) ++ [.clickStop])).isRecording
        = false := by
  decide

/-- A tick before the limit only advances the counter. -/
theorem tick_early (a : App) (t : Nat) (iv : Interval)
    (h : a.intervals.find? (fun iv => iv.id = t) = some iv) (hs : a.seconds + 1 < 180) :
    tick t a = { a with seconds := a.seconds + 1 } := by
  have hs' : ¬ (a.seconds + 1 ≥ 180) := by omega
  simp only [tick, h, hs', if_false]

theorem ticks_early (t n : Nat) (iv : Interval) :
    ∀ a : App, a.intervals.find? (fun iv => iv.id = t) = some iv → a.seconds + n < 180 →
      run a (List.replicate n (.tick t)) = { a with seconds := a.seconds + n } := by
  induction n with
  | zero => intro a _ _; rfl
  | succ n ih =>
    intro a h hs
    rw [List.replicate_succ, run_cons]
    simp only [step]
    rw [tick_early a t iv h (by omega), ih { a with seconds := a.seconds + 1 } h
      (by simp only; omega)]
    simp only [Nat.add_assoc, Nat.add_comm 1 n]

/-- C7 as amended.  The component registers no handler for a track's `ended` event.
In a session in the Recording state (fewer than 180 ticks), when the source of any
track `t` ends on its own after `n` ticks, the component does nothing: `m` ticks later
the state is the one `startRecording` left, with the counter at `n + m` and `t`
recorded as ended by its source; so `isRecording` is true, the recorder has not been
stopped, no blob has been produced, no track has been stopped by the component and the
timer runs.  Only an explicit `stopRecording` then ends the session: the click on
"Stop" sets `isRecording` to false, stops the recorder, empties `streamsRef` and stops
every track of both sources. -/
theorem trackEnded_ignored (a0 : App) (display mic : MediaStream) (t : TrackId) (n m : Nat)
    (hidle : a0.isRecording = false)
    (hfresh : ∀ iv ∈ a0.intervals, iv.id ≠ a0.nextTimer) (hlt : n + m < 180) :
    run a0 ([.clickStart (StartEnv.ok display mic)] ++ List.replicate n (.tick a0.nextTimer)
          ++ [.trackEnded t] ++ List.replicate m (.tick a0.nextTimer)) =
        { startRecording a0 (StartEnv.ok display mic) with
          seconds := n + m
          endedBySource := a0.endedBySource ++ [t] }
      ∧ (run a0 ([.clickStart (StartEnv.ok display mic)]
          ++ List.replicate n (.tick a0.nextTimer) ++ [.trackEnded t]
          ++ List.replicate m (.tick a0.nextTimer))).isRecording = true
      ∧ (run a0 ([.clickStart (StartEnv.ok display mic)]
          ++ List.replicate n (.tick a0.nextTimer) ++ [.trackEnded t]
          ++ List.replicate m (.tick a0.nextTimer))).isActive a0.recorders.length = true
      ∧ (run a0 ([.clickStart (StartEnv.ok display mic)]
          ++ List.replicate n (.tick a0.nextTimer) ++ [.trackEnded t]
          ++ List.replicate m (.tick a0.nextTimer))).blobObj = a0.blobObj
      ∧ (run a0 ([.clickStart (StartEnv.ok display mic)]
          ++ List.replicate n (.tick a0.nextTimer) ++ [.trackEnded t]
          ++ List.replicate m (.tick a0.nextTimer))).stopCalls = a0.stopCalls
      ∧ (∃ iv ∈ (run a0 ([.clickStart (StartEnv.ok display mic)]
          ++ List.replicate n (.tick a0.nextTimer) ++ [.trackEnded t]
          ++ List.replicate m (.tick a0.nextTimer))).intervals, iv.id = a0.nextTimer)
      ∧ (run a0 ([.clickStart (StartEnv.ok display mic)]
          ++ List.replicate n (.tick a0.nextTimer) ++ [.trackEnded t]
          ++ List.replicate m (.tick a0.nextTimer) ++ [.clickStop])).isRecording = false
      ∧ (run a0 ([.clickStart (StartEnv.ok display mic)]
          ++ List.replicate n (.tick a0.nextTimer) ++ [.trackEnded t]
          ++ List.replicate m (.tick a0.nextTimer) ++ [.clickStop])).isActive
            a0.recorders.length = false
      ∧ (run a0 ([.clickStart (StartEnv.ok display mic)]
          ++ List.replicate n (.tick a0.nextTimer) ++ [.trackEnded t]
          ++ List.replicate m (.tick a0.nextTimer) ++ [.clickStop])).streamsRef = []
      ∧ ∀ s ∈ [display, mic], ∀ u ∈ s.tracks,
          (run a0 ([.clickStart (StartEnv.ok display mic)]
            ++ List.replicate n (.tick a0.nextTimer) ++ [.trackEnded t]
            ++ List.replicate m (.tick a0.nextTimer) ++ [.clickStop])).live u.id = false := by
  have hstart : run a0 [.clickStart (StartEnv.ok display mic)] =
      startRecording a0 (StartEnv.ok display mic) := by
    simp only [run_cons, run_nil, step, hidle, Bool.false_eq_true, if_false]
  have hfind := find?_fresh a0.intervals a0.nextTimer a0.mediaRecorder hfresh
  have hrun : run a0 ([.clickStart (StartEnv.ok display mic)]
      ++ List.replicate n (.tick a0.nextTimer) ++ [.trackEnded t]
      ++ List.replicate m (.tick a0.nextTimer)) =
        { startRecording a0 (StartEnv.ok display mic) with
          seconds := n + m
          endedBySource := a0.endedBySource ++ [t] } := by
    rw [run_append, run_append, run_append, hstart, startRecording_ok,
      ticks_early a0.nextTimer n _ _ hfind (by simp only; omega)]
    simp only [run_cons, run_nil, step]
    rw [ticks_early a0.nextTimer m _ _ hfind (by simp only; omega)]
    simp
  have hstop : run a0 ([.clickStart (StartEnv.ok display mic)]
      ++ List.replicate n (.tick a0.nextTimer) ++ [.trackEnded t]
      ++ List.replicate m (.tick a0.nextTimer) ++ [.clickStop]) =
        { startRecording a0 (StartEnv.ok display mic) with
          seconds := n + m
          endedBySource := a0.endedBySource ++ [t]
          recorders := a0.recorders ++ [⟨mixed display mic, false, true, []⟩]
          isRecording := false
          intervals := (a0.intervals ++ [(⟨a0.nextTimer, a0.mediaRecorder⟩ : Interval)]).filter
            (fun iv => iv.id ≠ a0.nextTimer)
          stopCalls := a0.stopCalls ++ tracksOf [display, mic, mixed display mic]
          streamsRef := [] } := by
    rw [run_append, hrun, startRecording_ok]
    simp only [run_cons, run_nil, step, if_true]
    rw [stopRecording_active _ _ ⟨mixed display mic, true, false, []⟩ (getElem?_last _ _) rfl]
    simp only [set_last, clearInterval]
  refine ⟨hrun, ?_, ?_, ?_, ?_, ?_, ?_, ?_, ?_, ?_⟩
  · rw [hrun, startRecording_ok]
  · rw [hrun, startRecording_ok]
    simp only [App.isActive, List.getElem?_concat_length]
  · rw [hrun, startRecording_ok]
  · rw [hrun, startRecording_ok]
  · rw [hrun, startRecording_ok]
    exact ⟨⟨a0.nextTimer, a0.mediaRecorder⟩, by simp, rfl⟩
  · rw [hstop]
  · rw [hstop]
    simp only [App.isActive, List.getElem?_concat_length]
  · rw [hstop]
  · intro s hs u hu
    apply live_of_stopped
    rw [hstop]
    refine List.mem_append_right _ (mem_tracksOf _ s u ?_ hu)
    rcases List.mem_cons.mp hs with h | h
    · rw [h]; simp
    · rw [List.mem_singleton.mp h]; simp

/-- C7 as amended, on the display video track ending at second 42: three ticks later
the session is still recording with the counter at 45. -/
theorem trackEnded_ignored_witness :
    run (App.init true) ([.clickStart (StartEnv.ok displayStream micStream)]
        ++ List.replicate 42 (.tick (App.init true).nextTimer) ++ [.trackEnded 0]
        ++ List.replicate 3 (.tick (App.init true).nextTimer)) =
      { startRecording (App.init true) (StartEnv.ok displayStream micStream) with
        seconds := 42 + 3
        endedBySource := (App.init true).endedBySource ++ [0] } :=
  (trackEnded_ignored (App.init true) displayStream micStream 0 42 3 rfl (by decide)
    (by decide)).1

set_option maxRecDepth 100000 in
/-- C5, as the code behaves.  Two runs of `stopRecording` in a session after which
tracks of the session are still live.  First, the display video track and the
microphone track end, the browser inactivates the recorder, and the user clicks "Stop"
in a browser where `stop()` on an inactive recorder throws: the `catch` block only
logs, the display audio track 1 is still live, `streamsRef` still holds the three
streams and `isRecording` is still true.  Second, in the first session after mounting
the timer calls `stopRecording` at the tick that takes the counter to 180; that call
returns at once, all three tracks are still live and `streamsRef` still holds the three
streams. -/
theorem stopRecording_leaves_tracks :
    (run (App.init true)
        [.clickStart granted, .trackEnded 0, .trackEnded 2, .recorderEnded 0]).isActive 0
        = false
      ∧ (run (App.init true)
        [.clickStart granted, .trackEnded 0, .trackEnded 2, .recorderEnded 0,
          .clickStop]).live 1 = true
      ∧ (run (App.init true)
        [.clickStart granted, .trackEnded 0, .trackEnded 2, .recorderEnded 0,
          .clickStop]).streamsRef = [displayStream, micStream, mixed displayStream micStream]
      ∧ (run (App.init true)
        [.clickStart granted, .trackEnded 0, .trackEnded 2, .recorderEnded 0,
          .clickStop]).stopCalls = []
      ∧ (run (App.init true)
        [.clickStart granted, .trackEnded 0, .trackEnded 2, .recorderEnded 0,
          .clickStop]).isRecording = true
      ∧ (run (App.init true)
        [.clickStart granted, .trackEnded 0, .trackEnded 2, .recorderEnded 0,
          .clickStop]).consoleErrors = 1
      ∧ tick 0 (run (App.init false) ([.clickStart granted] ++ List.replicate 179 (.tick 0))) =
        { stopRecording none
            (run (App.init false) ([.clickStart granted] ++ List.replicate 179 (.tick 0))) with
          seconds := 180 }
      ∧ (run (App.init false) ([.clickStart granted] ++ List.replicate 180 (.tick 0))).live 0
        = true
      ∧ (run (App.init false) ([.clickStart granted] ++ List.replicate 180 (.tick 0))).live 1
        = true
      ∧ (run (App.init false) ([.clickStart granted] ++ List.replicate 180 (.tick 0))).live 2
        = true
      ∧ (run (App.init false) ([.clickStart granted] ++ List.replicate 180 (.tick 0))).streamsRef
        = [displayStream, micStream, mixed displayStream micStream] := by
  decide

end ScreenRecorder
